import Mathlib

/-!
# CloudWatch time-series pipeline: query classification, expansion and regrouping

A shallow embedding of `pkg/tsdb/cloudwatch` (`cloudwatch_query.go`,
`query_transformer.go`, `types.go`, `cloudwatch.go`).

Conventions of the embedding

* A Go `string` is a Lean `String`.  The code only compares strings for equality,
  orders them with `<` and searches them for ASCII markers; on well-formed UTF-8
  the byte-wise and the code-point-wise readings of these operations agree.
* A Go `map[string]V` is an association list `GoMap V`; it is read with
  `List.lookup` and written with `GoMap.set`.  The keys stand in the order of
  their first insertion; that order is an artefact of the embedding, and what is
  said of a map is said through its lookups and its set of keys.
* A Go pointer that the code dereferences without a nil check and that the
  statements below single out (`cloudwatchResponse.series`) is an `Option`; the
  dereference of `none` is the run-time panic, rendered as the result `none`.
* `error` values are rendered by the data they carry.
-/

namespace Cloudwatch

/-! ## Go library functions used by the package -/

/-- Go `strings.HasPrefix` on the characters of the two strings. -/
def strings.HasPrefix : List Char → List Char → Bool
  | _, [] => true
  | [], _ :: _ => false
  | c :: cs, p :: ps => c == p && strings.HasPrefix cs ps

/-- Go `strings.Contains` on the characters of the two strings: `substr` occurs at
some position of `s`. -/
def strings.containsChars : List Char → List Char → Bool
  | [], substr => strings.HasPrefix [] substr
  | c :: cs, substr => strings.HasPrefix (c :: cs) substr || strings.containsChars cs substr

/-- Go `strings.Contains(s, substr)`. -/
def strings.Contains (s substr : String) : Bool :=
  strings.containsChars s.toList substr.toList

/-- Go `strings.ReplaceAll(s, ".", "_")`: the old text is the single character
`.`, so the replacement acts character by character. -/
def strings.ReplaceAllDotUnderscore (s : String) : String :=
  String.mk (s.toList.map (fun c => if c = '.' then '_' else c))

/-! ## Maps -/

/-- A Go `map[string]V` as an association list. -/
abbrev GoMap (V : Type) := List (String × V)

/-- The assignment `m[k] = v`: overwrite the entry of `k` when there is one, add
one otherwise. -/
def GoMap.set {V : Type} : GoMap V → String → V → GoMap V
  | [], k, v => [(k, v)]
  | (k', v') :: m, k, v => if k' = k then (k, v) :: m else (k', v') :: GoMap.set m k v

/-- The keys of a map. -/
def GoMap.keys {V : Type} (m : GoMap V) : List String := m.map Prod.fst

/-! ## `cloudwatch_query.go` -/

/-- The struct `cloudWatchQuery`. -/
structure cloudWatchQuery where
  RefId : String
  Region : String
  Id : String
  Namespace : String
  MetricName : String
  Stats : String
  QueryType : String
  Expression : String
  ReturnData : Bool
  Dimensions : GoMap (List String)
  Period : Int
  Alias : String
  Identifier : String
  HighResolution : Bool
  MatchExact : Bool
  SearchExpression : String
  RequestExceededMaxLimit : Bool
  deriving DecidableEq, Repr

/-- The method `isMathExpression`. -/
def cloudWatchQuery.isMathExpression (q : cloudWatchQuery) : Bool :=
  q.Expression != "" && !strings.Contains q.Expression "SEARCH("

/-- The method `isUserDefinedSearchExpression`. -/
def cloudWatchQuery.isUserDefinedSearchExpression (q : cloudWatchQuery) : Bool :=
  strings.Contains q.Expression "SEARCH("

/-- The method `isInferredSearchExpression`.  The loop over the dimensions returns
`true` at the first dimension with more than one value or with a value `*`, so
its result does not depend on the order in which the map is visited. -/
def cloudWatchQuery.isInferredSearchExpression (q : cloudWatchQuery) : Bool :=
  if q.Dimensions.length = 0 then true
  else q.Dimensions.any (fun kv => decide (kv.2.length > 1) || kv.2.any (fun v => v == "*"))

/-- The method `isSearchExpression`. -/
def cloudWatchQuery.isSearchExpression (q : cloudWatchQuery) : Bool :=
  if q.isUserDefinedSearchExpression then true
  else q.isInferredSearchExpression

/-- The method `isMetricStat`. -/
def cloudWatchQuery.isMetricStat (q : cloudWatchQuery) : Bool :=
  !q.isSearchExpression && !q.isMathExpression

/-! ## `types.go` -/

/-- The struct `requestQuery`.  The statistics are held by value: the parser that
fills `Statistics` stores the address of a string for each of them. -/
structure requestQuery where
  RefId : String
  Region : String
  Id : String
  Namespace : String
  MetricName : String
  Statistics : List String
  QueryType : String
  Expression : String
  ReturnData : Bool
  Dimensions : GoMap (List String)
  ExtendedStatistics : List String
  Period : Int
  Alias : String
  HighResolution : Bool
  MatchExact : Bool
  deriving DecidableEq, Repr

/-- A `tsdb.TimeSeries`: a label, the data points and the tags.  The code at hand
reads the label only; points and tags are carried along untouched. -/
structure TimeSeries where
  Name : String
  Points : List (Int × Int)
  Tags : GoMap String
  deriving DecidableEq, Repr

/-- The struct `cloudwatchResponse`.  The field `series` is a pointer to a slice;
`none` is the nil pointer. -/
structure cloudwatchResponse where
  series : Option (List TimeSeries)
  Id : String
  RefId : String
  SearchExpression : String
  RequestExceededMaxLimit : Bool
  deriving DecidableEq, Repr

/-- The error value built by `transformRequestQueriesToCloudWatchQueries`: the
message of the wrapped error and the `RefID` it is attributed to. -/
structure queryError where
  err : String
  RefID : String
  deriving DecidableEq, Repr

/-- Go `error` values seen by `executeTimeSeriesQuery`: a `*queryBuilderError`
with its message and `RefID`, or an error of any other dynamic type. -/
inductive GoError where
  | queryBuilderError (err : String) (RefID : String)
  | other (msg : String)
  deriving DecidableEq, Repr

/-- A `tsdb.QueryResult`, with the fields this package assigns.  `Error` is the
Go `error` (`none` is nil); `Meta` holds the two string lists stored under the
keys `searchExpressions` and `Ids`. -/
structure QueryResult where
  Error : Option GoError
  ErrorString : String
  RefId : String
  Meta : GoMap (List String)
  Series : List TimeSeries
  deriving DecidableEq, Repr

/-- Modelled from the spec: `tsdb.NewQueryResult` is declared outside the files at
hand; it gives a fresh result with no error, no message and no series. -/
def tsdb.NewQueryResult : QueryResult :=
  { Error := none, ErrorString := "", RefId := "", Meta := [], Series := [] }

/-- A `tsdb.Response`, with its map of results by RefID. -/
structure Response where
  Results : GoMap QueryResult
  deriving DecidableEq, Repr

/-! ## `query_transformer.go`: expansion -/

/-- The identifier computed at the head of the inner loop of
`transformRequestQueriesToCloudWatchQueries`. -/
def queryId (requestQuery : requestQuery) (stat : String) : String :=
  let id := requestQuery.Id
  let id := if id = "" then "query" ++ requestQuery.RefId else id
  if requestQuery.Statistics.length > 1 then
    id ++ "_" ++ strings.ReplaceAllDotUnderscore stat
  else id

/-- The `cloudWatchQuery` literal built in the inner loop; the fields the literal
does not name keep their zero value. -/
def newCloudWatchQuery (requestQuery : requestQuery) (stat : String) : cloudWatchQuery :=
  { Id := queryId requestQuery stat
    RefId := requestQuery.RefId
    Region := requestQuery.Region
    Namespace := requestQuery.Namespace
    MetricName := requestQuery.MetricName
    Dimensions := requestQuery.Dimensions
    Stats := stat
    Period := requestQuery.Period
    Alias := requestQuery.Alias
    Expression := requestQuery.Expression
    ReturnData := requestQuery.ReturnData
    HighResolution := requestQuery.HighResolution
    MatchExact := requestQuery.MatchExact
    QueryType := ""
    Identifier := ""
    SearchExpression := ""
    RequestExceededMaxLimit := false }

/-- The inner loop of `transformRequestQueriesToCloudWatchQueries`, over the
statistics that remain of one request query. -/
def statisticsLoop (requestQuery : requestQuery) :
    List String → GoMap cloudWatchQuery → Except queryError (GoMap cloudWatchQuery)
  | [], cloudwatchQueries => .ok cloudwatchQueries
  | stat :: stats, cloudwatchQueries =>
    let id := queryId requestQuery stat
    let query := newCloudWatchQuery requestQuery stat
    if (cloudwatchQueries.lookup id).isSome then
      .error { err := "Query id " ++ query.Id ++ " is not unique", RefID := query.RefId }
    else
      statisticsLoop requestQuery stats (cloudwatchQueries.set id query)

/-- The outer loop of `transformRequestQueriesToCloudWatchQueries`. -/
def requestQueriesLoop :
    List requestQuery → GoMap cloudWatchQuery → Except queryError (GoMap cloudWatchQuery)
  | [], cloudwatchQueries => .ok cloudwatchQueries
  | requestQuery :: rest, cloudwatchQueries =>
    match statisticsLoop requestQuery requestQuery.Statistics cloudwatchQueries with
    | .error e => .error e
    | .ok cloudwatchQueries => requestQueriesLoop rest cloudwatchQueries

/-- The function `transformRequestQueriesToCloudWatchQueries`. -/
def transformRequestQueriesToCloudWatchQueries (requestQueries : List requestQuery) :
    Except queryError (GoMap cloudWatchQuery) :=
  requestQueriesLoop requestQueries []

/-! ## `query_transformer.go`: regrouping -/

/-- Go `sort.Slice` with the comparison `timeSeries[i].Name < timeSeries[j].Name`.
The library promises a rearrangement of the slice in which no element is less
than an earlier one, and no more (the sort is not stable); any function with
that contract stands for it. -/
structure SliceSorter where
  sort : List TimeSeries → List TimeSeries
  perm : ∀ l, (sort l).Perm l
  sorted : ∀ l, (sort l).Pairwise (fun a b => ¬ b.Name < a.Name)

/-- Insertion of one series into a list sorted by name, in front of the first
series that is not less than it.  Go orders strings lexicographically; the
comparison is made on the character lists, which is the order of `String`
(`String.lt_iff_toList_lt`). -/
def insertByName (a : TimeSeries) : List TimeSeries → List TimeSeries
  | [] => [a]
  | b :: l => if b.Name.toList < a.Name.toList then b :: insertByName a l else a :: b :: l

/-- Insertion sort by name; series with equal names keep their relative order, as
in the insertion sort that `sort.Slice` runs on short slices. -/
def insertionSort : List TimeSeries → List TimeSeries
  | [] => []
  | a :: l => insertByName a (insertionSort l)

/-- Insertion sort as one admissible `sort.Slice`. -/
def insertionSorter : SliceSorter where
  sort := insertionSort
  perm := by
    have hins : ∀ (a : TimeSeries) (l : List TimeSeries), (insertByName a l).Perm (a :: l) := by
      intro a l
      induction l with
      | nil => exact List.Perm.refl _
      | cons b l ih =>
        unfold insertByName
        split
        · exact ((List.Perm.cons b ih).trans (List.Perm.swap a b l))
        · exact List.Perm.refl _
    intro l
    induction l with
    | nil => exact List.Perm.nil
    | cons a l ih => exact (hins a _).trans (List.Perm.cons a ih)
  sorted := by
    have hins : ∀ (a : TimeSeries) (l : List TimeSeries),
        l.Pairwise (fun x y => ¬ y.Name < x.Name) →
        (∀ x ∈ insertByName a l, x = a ∨ x ∈ l) ∧
        (insertByName a l).Pairwise (fun x y => ¬ y.Name < x.Name) := by
      intro a l
      induction l with
      | nil =>
        intro _
        exact ⟨fun x hx => Or.inl (List.mem_singleton.1 hx), List.pairwise_singleton _ _⟩
      | cons b l ih =>
        intro hl
        have hl' := List.pairwise_cons.1 hl
        unfold insertByName
        split
        · rename_i hlt
          have hba : b.Name < a.Name := String.lt_iff_toList_lt.2 hlt
          obtain ⟨hmem, hsorted⟩ := ih hl'.2
          refine ⟨fun x hx => ?_, List.pairwise_cons.2 ⟨fun x hx => ?_, hsorted⟩⟩
          · rcases List.mem_cons.1 hx with h | h
            · exact Or.inr (h ▸ List.mem_cons_self _ _)
            · rcases hmem x h with h' | h'
              · exact Or.inl h'
              · exact Or.inr (List.mem_cons_of_mem _ h')
          · rcases hmem x hx with h | h
            · subst h
              exact not_lt.2 hba.le
            · exact hl'.1 x h
        · rename_i hlt
          have hab : ¬ b.Name < a.Name := fun h => hlt (String.lt_iff_toList_lt.1 h)
          refine ⟨fun x hx => ?_, List.pairwise_cons.2 ⟨fun x hx => ?_, hl⟩⟩
          · rcases List.mem_cons.1 hx with h | h
            · exact Or.inl h
            · exact Or.inr h
          · rcases List.mem_cons.1 hx with h | h
            · subst h
              exact hab
            · exact not_lt.2 ((not_lt.1 hab).trans (not_lt.1 (hl'.1 x h)))
    intro l
    induction l with
    | nil => exact List.Pairwise.nil
    | cons a l ih => exact (hins a _ ih).2

/-- The first loop of `transformQueryResponseToQueryResult`: the responses of each
RefId, in input order. -/
def groupResponsesByRefID :
    List cloudwatchResponse → GoMap (List cloudwatchResponse) → GoMap (List cloudwatchResponse)
  | [], responsesByRefID => responsesByRefID
  | res :: rest, responsesByRefID =>
    match responsesByRefID.lookup res.RefId with
    | some responses =>
      groupResponsesByRefID rest (responsesByRefID.set res.RefId (responses ++ [res]))
    | none => groupResponsesByRefID rest (responsesByRefID.set res.RefId [res])

/-- The local variables of the loop over the responses of one RefID. -/
structure Accumulated where
  timeSeries : List TimeSeries
  searchExpressions : List String
  ids : List String
  requestExceededMaxLimit : Bool
  deriving DecidableEq, Repr

/-- The loop over the responses of one RefID.  `*response.series` on a nil
pointer panics: the result is `none`. -/
def responsesLoop : List cloudwatchResponse → Accumulated → Option Accumulated
  | [], acc => some acc
  | response :: rest, acc =>
    match response.series with
    | none => none
    | some series =>
      responsesLoop rest
        { timeSeries := acc.timeSeries ++ series
          requestExceededMaxLimit := acc.requestExceededMaxLimit || response.RequestExceededMaxLimit
          searchExpressions :=
            if response.SearchExpression.length > 0 then
              acc.searchExpressions ++ [response.SearchExpression]
            else acc.searchExpressions
          ids := acc.ids ++ [response.Id] }

/-- The advisory message of `transformQueryResponseToQueryResult`. -/
def exceededMessage : String :=
  "Cloudwatch GetMetricData error: Maximum number of allowed metrics exceeded. Your search may have been limited."

/-- The body of the second loop of `transformQueryResponseToQueryResult`: the
result built for one RefID from its responses. -/
def buildQueryResult (S : SliceSorter) (refID : String) (responses : List cloudwatchResponse) :
    Option QueryResult :=
  let queryResult : QueryResult :=
    { tsdb.NewQueryResult with RefId := refID, Meta := [], Series := [] }
  match responsesLoop responses
      { timeSeries := [], searchExpressions := [], ids := [], requestExceededMaxLimit := false } with
  | none => none
  | some acc =>
    let timeSeries := S.sort acc.timeSeries
    let queryResult : QueryResult :=
      if acc.requestExceededMaxLimit then { queryResult with ErrorString := exceededMessage }
      else queryResult
    let queryResult : QueryResult :=
      { queryResult with Series := queryResult.Series ++ timeSeries }
    let queryResult : QueryResult :=
      { queryResult with Meta := queryResult.Meta.set "searchExpressions" acc.searchExpressions }
    let queryResult : QueryResult :=
      { queryResult with Meta := queryResult.Meta.set "Ids" acc.ids }
    some queryResult

/-- The second loop of `transformQueryResponseToQueryResult`, over the entries of
`responsesByRefID`. -/
def resultsLoop (S : SliceSorter) :
    GoMap (List cloudwatchResponse) → GoMap QueryResult → Option (GoMap QueryResult)
  | [], results => some results
  | (refID, responses) :: rest, results =>
    match buildQueryResult S refID responses with
    | none => none
    | some queryResult => resultsLoop S rest (results.set refID queryResult)

/-- The function `transformQueryResponseToQueryResult`; `none` is the panic of a
nil `series` pointer. -/
def transformQueryResponseToQueryResult (S : SliceSorter)
    (cloudwatchResponses : List cloudwatchResponse) : Option (GoMap QueryResult) :=
  resultsLoop S (groupResponsesByRefID cloudwatchResponses []) []

/-! ## `cloudwatch.go` -/

/-- The loop of `groupQueriesByRegion` over the queries that remain. -/
def groupQueriesByRegionLoop :
    List cloudWatchQuery → GoMap (List cloudWatchQuery) → GoMap (List cloudWatchQuery)
  | [], queriesByRegion => queriesByRegion
  | query :: rest, queriesByRegion =>
    let queriesByRegion :=
      if (queriesByRegion.lookup query.Region).isSome then queriesByRegion
      else queriesByRegion.set query.Region []
    groupQueriesByRegionLoop rest
      (queriesByRegion.set query.Region
        (((queriesByRegion.lookup query.Region).getD []) ++ [query]))

/-- The function `groupQueriesByRegion`; the `range` loop visits the entries of
`queries` in the order of the list. -/
def groupQueriesByRegion (queries : GoMap cloudWatchQuery) : GoMap (List cloudWatchQuery) :=
  groupQueriesByRegionLoop (queries.map Prod.snd) []

/-- The functions `executeTimeSeriesQuery` calls and that are declared outside the
files at hand, over a type `Ctx` of query contexts and a type `Input` of
`GetMetricDataInput` requests.  `regionTask region inputs queries` is the outcome
of the task started for one region (client, requests, response parsing, with a
recovered panic reported as a result): the results it sends, or its error. -/
structure Collaborators (Ctx Input : Type) where
  parseQueries : Ctx → Except GoError (GoMap cloudWatchQuery)
  buildMetricDataInputs : Ctx → List cloudWatchQuery → Except GoError (List Input)
  regionTask : String → List Input → GoMap cloudWatchQuery → Except GoError (List QueryResult)

/-- The loop of `executeTimeSeriesQuery` that builds the requests of each region;
it leaves the function at the first error. -/
def buildInputsLoop {Ctx Input : Type} (C : Collaborators Ctx Input) (queryContext : Ctx) :
    GoMap (List cloudWatchQuery) → GoMap (List Input) → Except GoError (GoMap (List Input))
  | [], metricDataInputsByRegion => .ok metricDataInputsByRegion
  | (region, queries) :: rest, metricDataInputsByRegion =>
    match C.buildMetricDataInputs queryContext queries with
    | .error err => .error err
    | .ok metricQueries =>
      buildInputsLoop C queryContext rest (metricDataInputsByRegion.set region metricQueries)

/-- The regional tasks and `eg.Wait`, under the schedule that runs the tasks one
after the other in the order of the list: the results sent to the channel, or the
error of the first task that fails. -/
def runRegionTasks {Ctx Input : Type} (C : Collaborators Ctx Input)
    (queries : GoMap cloudWatchQuery) :
    GoMap (List Input) → List QueryResult → Except GoError (List QueryResult)
  | [], sent => .ok sent
  | (region, metricDataInputs) :: rest, sent =>
    match C.regionTask region metricDataInputs queries with
    | .error err => .error err
    | .ok queryResponses => runRegionTasks C queries rest (sent ++ queryResponses)

/-- The last loop of `executeTimeSeriesQuery`: each result read from the channel
is stored under its RefId. -/
def collectResults : List QueryResult → GoMap QueryResult → GoMap QueryResult
  | [], results => results
  | result :: rest, results => collectResults rest (results.set result.RefId result)

/-- The function `executeTimeSeriesQuery`, returning the pair of a response
pointer (`none` is nil) and an error (`none` is nil).  The variable `err` tested
after the request-building loop is the one assigned by `parseQueries`: the loop
declares its own. -/
def executeTimeSeriesQuery {Ctx Input : Type} (C : Collaborators Ctx Input)
    (queryContext : Ctx) : Option Response × Option GoError :=
  let results : Response := { Results := [] }
  match C.parseQueries queryContext with
  | .error err => (some results, some err)
  | .ok queries =>
    let err : Option GoError := none
    let queriesByRegion := groupQueriesByRegion queries
    match buildInputsLoop C queryContext queriesByRegion [] with
    | .error err => (some results, some err)
    | .ok metricDataInputsByRegion =>
      match err with
      | some (.queryBuilderError msg refID) =>
        (some { Results := results.Results.set refID
                  { Error := some (.queryBuilderError msg refID), ErrorString := "", RefId := "",
                    Meta := [], Series := [] } },
          none)
      | some err => (some results, some err)
      | none =>
        match runRegionTasks C queries metricDataInputsByRegion [] with
        | .error err => (none, some err)
        | .ok sent => (some { Results := collectResults sent results.Results }, none)

/-- The three classifications of a query, in the order metric-stat, math
expression, search expression. -/
def classifications (q : cloudWatchQuery) : List Bool :=
  [q.isMetricStat, q.isMathExpression, q.isSearchExpression]

/-- A math expression that declares no dimensions. -/
def mathWithoutDimensions : cloudWatchQuery :=
  { RefId := "A", Region := "us-east-1", Id := "", Namespace := "", MetricName := "",
    Stats := "Average", QueryType := "", Expression := "a+b", ReturnData := true,
    Dimensions := [], Period := 300, Alias := "", Identifier := "", HighResolution := false,
    MatchExact := true, SearchExpression := "", RequestExceededMaxLimit := false }

/-- The (request query, statistic) pairs in the order the two nested loops of
`transformRequestQueriesToCloudWatchQueries` visit them. -/
def expansionPairs : List requestQuery → List (requestQuery × String)
  | [] => []
  | requestQuery :: rest =>
    requestQuery.Statistics.map (fun stat => (requestQuery, stat)) ++ expansionPairs rest

/-- The sequence of derived identifiers: request queries in input order,
statistics in list order. -/
def derivedIds (requestQueries : List requestQuery) : List String :=
  (expansionPairs requestQueries).map (fun p => queryId p.1 p.2)

/-- The map entry written for one (request query, statistic) pair. -/
def expansionEntry (p : requestQuery × String) : String × cloudWatchQuery :=
  (queryId p.1 p.2, newCloudWatchQuery p.1 p.2)

/-- The error returned when the identifier of the pair `p` is already taken. -/
def collisionError (p : requestQuery × String) : queryError :=
  { err := "Query id " ++ queryId p.1 p.2 ++ " is not unique", RefID := p.1.RefId }

/-- The two nested loops of `transformRequestQueriesToCloudWatchQueries` read as one
loop over the pairs (`requestQueriesLoop_eq` relates the two). -/
def insertPairs :
    List (requestQuery × String) → GoMap cloudWatchQuery →
      Except queryError (GoMap cloudWatchQuery)
  | [], m => .ok m
  | p :: ps, m =>
    if (m.lookup (queryId p.1 p.2)).isSome then .error (collisionError p)
    else insertPairs ps (m.set (queryId p.1 p.2) (newCloudWatchQuery p.1 p.2))

/-- The scenario request query: RefId `A`, no client id, statistics `Average` and
`Maximum`. -/
def scenarioQueryA : requestQuery :=
  { RefId := "A", Region := "us-east-1", Id := "", Namespace := "AWS/EC2",
    MetricName := "CPUUtilization", Statistics := ["Average", "Maximum"], QueryType := "",
    Expression := "", ReturnData := true, Dimensions := [("InstanceId", ["i-1"])],
    ExtendedStatistics := [], Period := 300, Alias := "", HighResolution := false,
    MatchExact := true }

/-- The responses of the input that carry the RefId `refID`, in input order. -/
def responsesOf (refID : String) (rs : List cloudwatchResponse) : List cloudwatchResponse :=
  rs.filter (fun r => decide (r.RefId = refID))

/-- The concatenation of the series of a list of responses. -/
def concatSeries (rs : List cloudwatchResponse) : List TimeSeries :=
  rs.flatMap (fun r => r.series.getD [])

/-- The result that the second loop of `transformQueryResponseToQueryResult`
builds from the responses of one RefID, in closed form
(`buildQueryResult_eq_some` relates the two). -/
def regroupedResult (S : SliceSorter) (refID : String) (rs : List cloudwatchResponse) :
    QueryResult :=
  { Error := none
    ErrorString := if rs.any (fun r => r.RequestExceededMaxLimit) then exceededMessage else ""
    RefId := refID
    Meta :=
      [("searchExpressions",
          (rs.filter (fun r => decide (r.SearchExpression.length > 0))).map
            (fun r => r.SearchExpression)),
        ("Ids", rs.map (fun r => r.Id))]
    Series := S.sort (concatSeries rs) }

/-- The scenario series named `X`. -/
def seriesX : TimeSeries := { Name := "X", Points := [(1, 60)], Tags := [] }

/-- The scenario series named `Y`. -/
def seriesY : TimeSeries := { Name := "Y", Points := [(2, 60)], Tags := [] }

/-- The scenario response for `queryA_Average`, with the series `X`. -/
def responseAverage : cloudwatchResponse :=
  { series := some [seriesX], Id := "queryA_Average", RefId := "A", SearchExpression := "",
    RequestExceededMaxLimit := false }

/-- The scenario response for `queryA_Maximum`, with the series `Y`. -/
def responseMaximum : cloudwatchResponse :=
  { series := some [seriesY], Id := "queryA_Maximum", RefId := "A", SearchExpression := "",
    RequestExceededMaxLimit := false }

/-- A first series labelled `cpu`. -/
def seriesCpu1 : TimeSeries := { Name := "cpu", Points := [(1, 60)], Tags := [] }

/-- A second series labelled `cpu`, with other points. -/
def seriesCpu2 : TimeSeries := { Name := "cpu", Points := [(2, 60)], Tags := [] }

/-- A response of RefId `A` with identifier `a`. -/
def responseA1 : cloudwatchResponse :=
  { series := some [seriesCpu1], Id := "a", RefId := "A", SearchExpression := "",
    RequestExceededMaxLimit := false }

/-- A response of RefId `A` with identifier `b`. -/
def responseA2 : cloudwatchResponse :=
  { series := some [seriesCpu2], Id := "b", RefId := "A", SearchExpression := "",
    RequestExceededMaxLimit := false }

/-- The concrete `parseQueries` used to run `executeTimeSeriesQuery`: the query
context is the list of request queries, which are expanded by
`transformRequestQueriesToCloudWatchQueries`; a collision is reported as a
query-builder error carrying the RefID. -/
def parseQueriesByExpansion (requestQueries : List requestQuery) :
    Except GoError (GoMap cloudWatchQuery) :=
  match transformRequestQueriesToCloudWatchQueries requestQueries with
  | .error e => .error (.queryBuilderError e.err e.RefID)
  | .ok cloudwatchQueries => .ok cloudwatchQueries

/-- Collaborators for running `executeTimeSeriesQuery`: `parseQueriesByExpansion`,
a request builder that never fails and regional tasks that send nothing. -/
def expansionCollaborators : Collaborators (List requestQuery) Unit :=
  { parseQueries := parseQueriesByExpansion
    buildMetricDataInputs := fun _ _ => .ok []
    regionTask := fun _ _ _ => .ok [] }

/-- A request query of RefId `A` with the client id `m1`. -/
def clashQueryA : requestQuery :=
  { RefId := "A", Region := "us-east-1", Id := "m1", Namespace := "AWS/EC2",
    MetricName := "CPUUtilization", Statistics := ["Average"], QueryType := "",
    Expression := "", ReturnData := true, Dimensions := [("InstanceId", ["i-1"])],
    ExtendedStatistics := [], Period := 300, Alias := "", HighResolution := false,
    MatchExact := true }

/-- A request query of RefId `B` with the same client id `m1`. -/
def clashQueryB : requestQuery :=
  { clashQueryA with RefId := "B", MetricName := "NetworkIn" }

/-- The pair `(map, error)` that `transformRequestQueriesToCloudWatchQueries`
hands to its caller: on a collision the map is nil, which reads as the empty
map. -/
def transformRequestQueriesToCloudWatchQueries.returned (requestQueries : List requestQuery) :
    GoMap cloudWatchQuery × Option queryError :=
  match transformRequestQueriesToCloudWatchQueries requestQueries with
  | .error e => ([], some e)
  | .ok cloudwatchQueries => (cloudwatchQueries, none)

/-- A request query of RefId `C` with the client id `m1` and two statistics. -/
def twoStatisticsWithId : requestQuery :=
  { clashQueryA with RefId := "C", Statistics := ["Average", "Maximum"] }

/-- A query with an empty expression whose only dimension has the single value
`*`. -/
def wildcardDimension : cloudWatchQuery :=
  { mathWithoutDimensions with Expression := "", Dimensions := [("InstanceId", ["*"])] }

/-- A query with an empty expression that declares no dimension. -/
def noDimensions : cloudWatchQuery :=
  { mathWithoutDimensions with Expression := "" }

/-- A request query of RefId `E` that carries an expression and no statistic. -/
def expressionWithoutStatistics : requestQuery :=
  { clashQueryA with RefId := "E", Id := "e1", Expression := "m1*2", Statistics := [] }

/-- The queries of the list that carry the region `region`, in the order of the
list. -/
def queriesOf (region : String) (queries : List cloudWatchQuery) : List cloudWatchQuery :=
  queries.filter (fun q => decide (q.Region = region))

/-- Three flattened queries over two regions, by identifier. -/
def threeQueriesTwoRegions : GoMap cloudWatchQuery :=
  [("a", { mathWithoutDimensions with Id := "a", Region := "us-east-1" }),
    ("b", { mathWithoutDimensions with Id := "b", Region := "eu-west-1" }),
    ("c", { mathWithoutDimensions with Id := "c", Region := "us-east-1" })]

/-- A simulated fetch: the response for one flattened query carries the Id and the
RefId of the query and one series labelled with the Id. -/
def simulatedFetch (q : cloudWatchQuery) : cloudwatchResponse :=
  { series := some [{ Name := q.Id, Points := [], Tags := [] }], Id := q.Id, RefId := q.RefId,
    SearchExpression := "", RequestExceededMaxLimit := false }

/-- The round trip: expansion, one fetched response per flattened query, and
regrouping.  `none` stands for a failed expansion or a panic of the regrouping. -/
def roundTrip (S : SliceSorter) (fetch : cloudWatchQuery → cloudwatchResponse)
    (requestQueries : List requestQuery) : Option (GoMap QueryResult) :=
  match transformRequestQueriesToCloudWatchQueries requestQueries with
  | .error _ => none
  | .ok cloudwatchQueries =>
    transformQueryResponseToQueryResult S (cloudwatchQueries.map (fun kv => fetch kv.2))

/-- A second request query of RefId `A`, with the client id `m2`. -/
def secondQueryOfA : requestQuery :=
  { clashQueryA with Id := "m2", MetricName := "NetworkOut" }

/-- A request query of RefId `B` in the region `eu-west-1`, with the client id
`m2`. -/
def euQueryB : requestQuery :=
  { clashQueryA with RefId := "B", Id := "m2", Region := "eu-west-1" }

/-- Collaborators in which the task of the region `eu-west-1` fails with a hard
error and the task of any other region sends one result for RefId `A` with the
series `X`. -/
def failingRegionCollaborators : Collaborators (List requestQuery) Unit :=
  { parseQueries := parseQueriesByExpansion
    buildMetricDataInputs := fun _ _ => .ok [()]
    regionTask := fun region _ _ =>
      if region = "eu-west-1" then .error (.other "AccessDenied")
      else .ok [{ tsdb.NewQueryResult with RefId := "A", Series := [seriesX] }] }

/-- The struct `metricDataInputBuilder`, which `NewCloudWatchExecutor` fills with
the two ceilings in this order. -/
structure metricDataInputBuilder where
  maxNoOfSearchExpressions : Nat
  maxNoOfMetricDataQueries : Nat
  deriving DecidableEq, Repr

/-- The constant `maxNoOfSearchExpressions`. -/
def maxNoOfSearchExpressions : Nat := 5

/-- The constant `maxNoOfMetricDataQueries`. -/
def maxNoOfMetricDataQueries : Nat := 100

/-- The builder that `NewCloudWatchExecutor` stores in the executor. -/
def mdib : metricDataInputBuilder :=
  { maxNoOfSearchExpressions := maxNoOfSearchExpressions
    maxNoOfMetricDataQueries := maxNoOfMetricDataQueries }

/-- The number of entries of a batch that are search expressions.  An entry is
represented by the flattened query it is built from. -/
def searchExpressionCount (batch : List cloudWatchQuery) : Nat :=
  batch.countP (fun q => q.isSearchExpression)

/-- Modelled from the spec: the packing loop of `buildMetricDataInputs`, which is
declared outside the files at hand.  The queries are walked in input order and
added to the current batch; when adding the next entry would exceed the ceiling
on entries or the ceiling on search expressions, the current batch is closed and
a new one starts with that entry.  An entry that meets an empty current batch is
always taken, so that no query is dropped. -/
def metricDataInputBuilder.pack (mdib : metricDataInputBuilder) :
    List cloudWatchQuery → List cloudWatchQuery → List (List cloudWatchQuery)
  | [], current => if current = [] then [] else [current]
  | query :: rest, current =>
    if current ≠ [] ∧
        (current.length + 1 > mdib.maxNoOfMetricDataQueries ∨
          searchExpressionCount (current ++ [query]) > mdib.maxNoOfSearchExpressions) then
      current :: metricDataInputBuilder.pack mdib rest [query]
    else metricDataInputBuilder.pack mdib rest (current ++ [query])

/-- Modelled from the spec: `buildMetricDataInputs`, declared outside the files at
hand, on the queries of one region: the batches in the order they are closed. -/
def metricDataInputBuilder.buildMetricDataInputs (mdib : metricDataInputBuilder)
    (queries : List cloudWatchQuery) : List (List cloudWatchQuery) :=
  mdib.pack queries []

/-- A request query of RefId `P` with no client id and the statistics `p99.9` and
`Average`. -/
def percentileQuery : requestQuery :=
  { scenarioQueryA with RefId := "P", Statistics := ["p99.9", "Average"] }

/-- The request query of RefId `P` with the client id `m1`. -/
def percentileQueryWithId : requestQuery :=
  { percentileQuery with Id := "m1" }

/-! ## The classifier -/

theorem contains_empty_search : strings.Contains "" "SEARCH(" = false := by decide

theorem isInferredSearchExpression_eq_false_iff (q : cloudWatchQuery) :
    q.isInferredSearchExpression = false ↔
      q.Dimensions ≠ [] ∧ (∀ kv ∈ q.Dimensions, kv.2.length ≤ 1) ∧
        (∀ kv ∈ q.Dimensions, ∀ v ∈ kv.2, v ≠ "*") := by
  unfold cloudWatchQuery.isInferredSearchExpression
  by_cases h : q.Dimensions = []
  · simp [h]
  · have hlen : q.Dimensions.length ≠ 0 := by simpa using h
    simp only [hlen, if_false, ne_eq, h, not_false_eq_true, true_and]
    rw [Bool.eq_false_iff, ne_eq, List.any_eq_true]
    constructor
    · intro hn
      refine ⟨fun kv hkv => ?_, fun kv hkv v hv hstar => ?_⟩
      · by_contra hgt
        exact hn ⟨kv, hkv, by simp; left; omega⟩
      · exact hn ⟨kv, hkv, by simp; right; exact hstar ▸ hv⟩
    · rintro ⟨h1, h2⟩ ⟨kv, hkv, hb⟩
      simp at hb
      rcases hb with hb | hb
      · have := h1 kv hkv
        omega
      · exact h2 kv hkv "*" hb rfl

/-- C1 (as stated, refuted): the math expression `a+b` without dimensions is both a
math expression and a search expression, so it is not the case that exactly one
of the three classifications holds of it. -/
theorem classification_not_exclusive :
    mathWithoutDimensions.isMathExpression = true ∧
      mathWithoutDimensions.isSearchExpression = true ∧
      ¬ ((classifications mathWithoutDimensions).count true = 1) := by
  decide

/-- C1 (amended): every query has at least one of the three classifications;
`isMetricStat` excludes the other two; `isMathExpression` and `isSearchExpression`
hold together exactly of a math expression whose dimensions make it an inferred
search expression, and in every other case exactly one classification holds. -/
theorem classification_exhaustive (q : cloudWatchQuery) :
    1 ≤ (classifications q).count true ∧
      (q.isMetricStat = true → q.isMathExpression = false ∧ q.isSearchExpression = false) ∧
      ((q.isMathExpression = true ∧ q.isSearchExpression = true) ↔
        (q.isMathExpression = true ∧ q.isInferredSearchExpression = true)) ∧
      ((classifications q).count true = 1 ↔
        ¬ (q.isMathExpression = true ∧ q.isInferredSearchExpression = true)) := by
  unfold classifications cloudWatchQuery.isMetricStat cloudWatchQuery.isSearchExpression
    cloudWatchQuery.isMathExpression cloudWatchQuery.isUserDefinedSearchExpression
  cases strings.Contains q.Expression "SEARCH(" <;> cases q.isInferredSearchExpression <;>
    cases (q.Expression != "") <;> simp

/-- C5: `isMetricStat` holds exactly when the expression is empty, there is at
least one dimension, no dimension has more than one value and no dimension value
is the wildcard `*`. -/
theorem isMetricStat_iff (q : cloudWatchQuery) :
    q.isMetricStat = true ↔
      q.Expression = "" ∧ q.Dimensions ≠ [] ∧ (∀ kv ∈ q.Dimensions, kv.2.length ≤ 1) ∧
        (∀ kv ∈ q.Dimensions, ∀ v ∈ kv.2, v ≠ "*") := by
  rw [← isInferredSearchExpression_eq_false_iff]
  unfold cloudWatchQuery.isMetricStat cloudWatchQuery.isSearchExpression
    cloudWatchQuery.isMathExpression cloudWatchQuery.isUserDefinedSearchExpression
  by_cases he : q.Expression = ""
  · simp [he, contains_empty_search]
  · cases strings.Contains q.Expression "SEARCH(" <;> simp [he]

/-! ## Maps: reading and writing -/

theorem GoMap.lookup_isSome_iff {V : Type} (m : GoMap V) (k : String) :
    (m.lookup k).isSome = true ↔ k ∈ m.keys := by
  induction m with
  | nil => simp [GoMap.keys]
  | cons kv m ih =>
    obtain ⟨k', v'⟩ := kv
    by_cases h : k = k'
    · subst h
      simp [List.lookup, GoMap.keys]
    · have hb : (k == k') = false := by simpa using h
      simp only [List.lookup, hb, ih]
      simp [GoMap.keys, h]

theorem GoMap.lookup_eq_none_iff {V : Type} (m : GoMap V) (k : String) :
    m.lookup k = none ↔ k ∉ m.keys := by
  rw [← GoMap.lookup_isSome_iff]
  cases m.lookup k <;> simp

theorem GoMap.set_of_not_mem {V : Type} (m : GoMap V) (k : String) (v : V)
    (h : k ∉ m.keys) : m.set k v = m ++ [(k, v)] := by
  induction m with
  | nil => rfl
  | cons kv m ih =>
    obtain ⟨k', v'⟩ := kv
    simp only [GoMap.keys, List.map_cons, List.mem_cons, not_or] at h
    have hne : ¬ k' = k := fun e => h.1 e.symm
    simp only [GoMap.set, hne, if_false, List.cons_append]
    rw [ih h.2]

theorem GoMap.lookup_of_mem {V : Type} (m : GoMap V) (hnd : m.keys.Nodup) (k : String) (v : V)
    (h : (k, v) ∈ m) : m.lookup k = some v := by
  induction m with
  | nil => simp at h
  | cons kv m ih =>
    obtain ⟨k', v'⟩ := kv
    simp only [GoMap.keys, List.map_cons, List.nodup_cons] at hnd
    rcases List.mem_cons.1 h with heq | hmem
    · cases heq
      simp [List.lookup]
    · have hne : k ≠ k' := by
        rintro rfl
        exact hnd.1 (List.mem_map.2 ⟨(k, v), hmem, rfl⟩)
      have hb : (k == k') = false := by simpa using hne
      simp only [List.lookup, hb]
      exact ih hnd.2 hmem

theorem GoMap.mem_of_lookup {V : Type} (m : GoMap V) (k : String) (v : V)
    (h : m.lookup k = some v) : (k, v) ∈ m := by
  induction m with
  | nil => simp at h
  | cons kv m ih =>
    obtain ⟨k', v'⟩ := kv
    by_cases hk : k = k'
    · subst hk
      simp [List.lookup] at h
      simp [h]
    · have hb : (k == k') = false := by simpa using hk
      simp only [List.lookup, hb] at h
      exact List.mem_cons_of_mem _ (ih h)

/-! ## Expansion -/

theorem statisticsLoop_eq (rq : requestQuery) (stats : List String) (m : GoMap cloudWatchQuery) :
    statisticsLoop rq stats m = insertPairs (stats.map (fun stat => (rq, stat))) m := by
  induction stats generalizing m with
  | nil => rfl
  | cons stat stats ih =>
    simp only [statisticsLoop, List.map_cons, insertPairs, collisionError, newCloudWatchQuery]
    split
    · rfl
    · exact ih _

theorem insertPairs_append (ps qs : List (requestQuery × String)) (m : GoMap cloudWatchQuery) :
    insertPairs (ps ++ qs) m =
      match insertPairs ps m with
      | .error e => .error e
      | .ok m' => insertPairs qs m' := by
  induction ps generalizing m with
  | nil => rfl
  | cons p ps ih =>
    simp only [List.cons_append, insertPairs]
    split
    · rfl
    · exact ih _

theorem requestQueriesLoop_eq (rqs : List requestQuery) (m : GoMap cloudWatchQuery) :
    requestQueriesLoop rqs m = insertPairs (expansionPairs rqs) m := by
  induction rqs generalizing m with
  | nil => rfl
  | cons rq rqs ih =>
    simp only [requestQueriesLoop, expansionPairs, insertPairs_append, statisticsLoop_eq]
    cases insertPairs (rq.Statistics.map (fun stat => (rq, stat))) m with
    | error e => rfl
    | ok m' => exact ih m'

theorem insertPairs_ok (ps : List (requestQuery × String)) (m : GoMap cloudWatchQuery)
    (h : (m.keys ++ ps.map (fun p => queryId p.1 p.2)).Nodup) :
    insertPairs ps m = .ok (m ++ ps.map expansionEntry) := by
  induction ps generalizing m with
  | nil => simp [insertPairs]
  | cons p ps ih =>
    have hnot : queryId p.1 p.2 ∉ m.keys := by
      intro hmem
      rw [List.nodup_append] at h
      exact h.2.2 hmem (List.mem_cons_self _ _)
    have hlook : ¬ ((m.lookup (queryId p.1 p.2)).isSome = true) := by
      rw [GoMap.lookup_isSome_iff]; exact hnot
    simp only [insertPairs, hlook, if_false]
    rw [GoMap.set_of_not_mem m _ _ hnot, ih]
    · simp [expansionEntry]
    · have : (m ++ [(queryId p.1 p.2, newCloudWatchQuery p.1 p.2)]).keys
          = m.keys ++ [queryId p.1 p.2] := by simp [GoMap.keys]
      rw [this, List.append_assoc]
      simpa using h

theorem insertPairs_error (ps : List (requestQuery × String)) (m : GoMap cloudWatchQuery)
    (hm : m.keys.Nodup) (h : ¬ (m.keys ++ ps.map (fun p => queryId p.1 p.2)).Nodup) :
    ∃ pre p post, ps = pre ++ p :: post ∧
      (m.keys ++ pre.map (fun p => queryId p.1 p.2)).Nodup ∧
      queryId p.1 p.2 ∈ m.keys ++ pre.map (fun p => queryId p.1 p.2) ∧
      insertPairs ps m = .error (collisionError p) := by
  induction ps generalizing m with
  | nil => simp [hm] at h
  | cons p ps ih =>
    by_cases hmem : queryId p.1 p.2 ∈ m.keys
    · refine ⟨[], p, ps, rfl, by simpa using hm, by simpa using hmem, ?_⟩
      have hlook : (m.lookup (queryId p.1 p.2)).isSome = true := by
        rw [GoMap.lookup_isSome_iff]; exact hmem
      simp [insertPairs, hlook]
    · have hlook : ¬ ((m.lookup (queryId p.1 p.2)).isSome = true) := by
        rw [GoMap.lookup_isSome_iff]; exact hmem
      have hkeys : (m.set (queryId p.1 p.2) (newCloudWatchQuery p.1 p.2)).keys
          = m.keys ++ [queryId p.1 p.2] := by
        rw [GoMap.set_of_not_mem m _ _ hmem]; simp [GoMap.keys]
      have hm' : (m.set (queryId p.1 p.2) (newCloudWatchQuery p.1 p.2)).keys.Nodup := by
        rw [hkeys]
        exact List.Nodup.append hm (List.nodup_singleton _) (by simpa using hmem)
      have h' : ¬ ((m.set (queryId p.1 p.2) (newCloudWatchQuery p.1 p.2)).keys
          ++ ps.map (fun p => queryId p.1 p.2)).Nodup := by
        rw [hkeys, List.append_assoc]
        simpa using h
      obtain ⟨pre, q, post, hps, hnd, hin, herr⟩ := ih _ hm' h'
      refine ⟨p :: pre, q, post, by simp [hps], ?_, ?_, ?_⟩
      · rw [hkeys, List.append_assoc] at hnd
        simpa using hnd
      · rw [hkeys, List.append_assoc] at hin
        simpa using hin
      · simp only [insertPairs, hlook, if_false]
        exact herr

theorem transform_eq_insertPairs (rqs : List requestQuery) :
    transformRequestQueriesToCloudWatchQueries rqs = insertPairs (expansionPairs rqs) [] :=
  requestQueriesLoop_eq rqs []

theorem transform_ok_of_nodup (rqs : List requestQuery) (h : (derivedIds rqs).Nodup) :
    transformRequestQueriesToCloudWatchQueries rqs
      = .ok ((expansionPairs rqs).map expansionEntry) := by
  rw [transform_eq_insertPairs, insertPairs_ok _ _ (by simpa [GoMap.keys, derivedIds] using h)]
  simp

theorem transform_error_of_dup (rqs : List requestQuery) (h : ¬ (derivedIds rqs).Nodup) :
    ∃ pre p post, expansionPairs rqs = pre ++ p :: post ∧
      (pre.map (fun p => queryId p.1 p.2)).Nodup ∧
      queryId p.1 p.2 ∈ pre.map (fun p => queryId p.1 p.2) ∧
      transformRequestQueriesToCloudWatchQueries rqs = .error (collisionError p) := by
  obtain ⟨pre, p, post, h1, h2, h3, h4⟩ :=
    insertPairs_error (expansionPairs rqs) [] (by simp [GoMap.keys])
      (by simpa [GoMap.keys, derivedIds] using h)
  exact ⟨pre, p, post, h1, by simpa [GoMap.keys] using h2, by simpa [GoMap.keys] using h3,
    by rw [transform_eq_insertPairs]; exact h4⟩

theorem transform_ok_iff (rqs : List requestQuery) (m : GoMap cloudWatchQuery) :
    transformRequestQueriesToCloudWatchQueries rqs = .ok m ↔
      (derivedIds rqs).Nodup ∧ m = (expansionPairs rqs).map expansionEntry := by
  constructor
  · intro h
    by_cases hnd : (derivedIds rqs).Nodup
    · rw [transform_ok_of_nodup rqs hnd] at h
      exact ⟨hnd, (Except.ok.inj h).symm⟩
    · obtain ⟨_, p, _, _, _, _, herr⟩ := transform_error_of_dup rqs hnd
      rw [herr] at h
      cases h
  · rintro ⟨hnd, rfl⟩
    exact transform_ok_of_nodup rqs hnd

theorem keys_map_expansionEntry (rqs : List requestQuery) :
    GoMap.keys ((expansionPairs rqs).map expansionEntry) = derivedIds rqs := by
  simp [GoMap.keys, derivedIds, expansionEntry, Function.comp_def]

theorem mem_expansionPairs (rqs : List requestQuery) (rq : requestQuery) (stat : String) :
    (rq, stat) ∈ expansionPairs rqs ↔ rq ∈ rqs ∧ stat ∈ rq.Statistics := by
  induction rqs with
  | nil => simp [expansionPairs]
  | cons r rqs ih =>
    simp only [expansionPairs, List.mem_append, List.mem_map, Prod.mk.injEq, ih, List.mem_cons]
    constructor
    · rintro (⟨s, hs, rfl, rfl⟩ | ⟨h1, h2⟩)
      · exact ⟨Or.inl rfl, hs⟩
      · exact ⟨Or.inr h1, h2⟩
    · rintro ⟨rfl | h1, h2⟩
      · exact Or.inl ⟨stat, h2, rfl, rfl⟩
      · exact Or.inr ⟨h1, h2⟩

theorem length_expansionPairs (rqs : List requestQuery) :
    (expansionPairs rqs).length = (rqs.map (fun rq => rq.Statistics.length)).sum := by
  induction rqs with
  | nil => rfl
  | cons r rqs ih => simp [expansionPairs, ih]

theorem transform_lookup (rqs : List requestQuery) (m : GoMap cloudWatchQuery)
    (h : transformRequestQueriesToCloudWatchQueries rqs = .ok m)
    (rq : requestQuery) (hrq : rq ∈ rqs) (stat : String) (hstat : stat ∈ rq.Statistics) :
    m.lookup (queryId rq stat) = some (newCloudWatchQuery rq stat) := by
  obtain ⟨hnd, rfl⟩ := (transform_ok_iff rqs m).1 h
  apply GoMap.lookup_of_mem
  · rw [keys_map_expansionEntry]; exact hnd
  · exact List.mem_map.2 ⟨(rq, stat), (mem_expansionPairs rqs rq stat).2 ⟨hrq, hstat⟩, rfl⟩

/-- C2: the expansion fails exactly when the sequence of derived identifiers has a
duplicate; the error then names the RefId of the pair whose identifier is the
first to repeat an earlier one (the pairs before it have distinct identifiers);
otherwise the call succeeds with a map whose keys are pairwise distinct, namely
the derived identifiers. -/
theorem transform_error_iff_duplicate (rqs : List requestQuery) :
    ((∃ e, transformRequestQueriesToCloudWatchQueries rqs = .error e) ↔
        ¬ (derivedIds rqs).Nodup) ∧
      (∀ e, transformRequestQueriesToCloudWatchQueries rqs = .error e →
        ∃ pre p post, expansionPairs rqs = pre ++ p :: post ∧
          (pre.map (fun p => queryId p.1 p.2)).Nodup ∧
          queryId p.1 p.2 ∈ pre.map (fun p => queryId p.1 p.2) ∧
          e.RefID = p.1.RefId ∧
          e.err = "Query id " ++ queryId p.1 p.2 ++ " is not unique") ∧
      (∀ m, transformRequestQueriesToCloudWatchQueries rqs = .ok m →
        m.keys.Nodup ∧ m.keys = derivedIds rqs) := by
  refine ⟨⟨?_, ?_⟩, ?_, ?_⟩
  · rintro ⟨e, he⟩ hnd
    rw [transform_ok_of_nodup rqs hnd] at he
    cases he
  · intro hnd
    obtain ⟨_, p, _, _, _, _, herr⟩ := transform_error_of_dup rqs hnd
    exact ⟨_, herr⟩
  · intro e he
    by_cases hnd : (derivedIds rqs).Nodup
    · rw [transform_ok_of_nodup rqs hnd] at he
      cases he
    · obtain ⟨pre, p, post, h1, h2, h3, herr⟩ := transform_error_of_dup rqs hnd
      rw [herr] at he
      cases he
      exact ⟨pre, p, post, h1, h2, h3, rfl, rfl⟩
  · intro m hm
    obtain ⟨hnd, rfl⟩ := (transform_ok_iff rqs m).1 hm
    rw [keys_map_expansionEntry]
    exact ⟨hnd, rfl⟩

/-- The characters of `strings.ReplaceAllDotUnderscore s` are those of `s`, each `.`
turned into `_` and every other character kept. -/
theorem ReplaceAllDotUnderscore_toList (s : String) :
    (strings.ReplaceAllDotUnderscore s).toList
      = s.toList.map (fun c => if c = '.' then '_' else c) := rfl

theorem dot_not_mem_ReplaceAllDotUnderscore (s : String) :
    '.' ∉ (strings.ReplaceAllDotUnderscore s).toList := by
  rw [ReplaceAllDotUnderscore_toList, List.mem_map]
  rintro ⟨c, _, hc⟩
  by_cases h : c = '.'
  · rw [if_pos h] at hc
    exact absurd hc (by decide)
  · rw [if_neg h] at hc
    exact h hc

theorem ReplaceAllDotUnderscore_of_no_dot (s : String) (h : '.' ∉ s.toList) :
    strings.ReplaceAllDotUnderscore s = s := by
  apply String.ext
  show (strings.ReplaceAllDotUnderscore s).toList = s.toList
  rw [ReplaceAllDotUnderscore_toList]
  conv_rhs => rw [← List.map_id s.toList]
  apply List.map_congr_left
  intro c hc
  have hne : c ≠ '.' := fun e => h (e ▸ hc)
  simp [hne]

theorem ReplaceAllDotUnderscore_percentile :
    strings.ReplaceAllDotUnderscore "p99.9" = "p99_9" ∧
      strings.ReplaceAllDotUnderscore "a.b.c" = "a_b_c" ∧
      strings.ReplaceAllDotUnderscore "Average" = "Average" := by
  decide

/-- C6: a request query with an empty client Id and exactly one statistic gets
the identifier `query` followed by its RefId; with more than one statistic, each
statistic `s` gets `query`, the RefId, `_` and the text `s'` whose characters are
those of `s` with every `.` turned into `_` (so that no `.` is left in it); when
the expansion succeeds the flattened query is stored under that key. -/
theorem generated_identifier (rqs : List requestQuery) (rq : requestQuery)
    (hrq : rq ∈ rqs) (hid : rq.Id = "") :
    (∀ s, rq.Statistics = [s] →
        queryId rq s = "query" ++ rq.RefId ∧
        ∀ m, transformRequestQueriesToCloudWatchQueries rqs = .ok m →
          m.lookup ("query" ++ rq.RefId) = some (newCloudWatchQuery rq s)) ∧
      (rq.Statistics.length > 1 → ∀ s ∈ rq.Statistics, ∃ s' : String,
        s'.toList = s.toList.map (fun c => if c = '.' then '_' else c) ∧
        '.' ∉ s'.toList ∧
        queryId rq s = "query" ++ rq.RefId ++ "_" ++ s' ∧
        ∀ m, transformRequestQueriesToCloudWatchQueries rqs = .ok m →
          m.lookup ("query" ++ rq.RefId ++ "_" ++ s') = some (newCloudWatchQuery rq s)) := by
  constructor
  · intro s hs
    have hq : queryId rq s = "query" ++ rq.RefId := by simp [queryId, hid, hs]
    refine ⟨hq, fun m hm => ?_⟩
    rw [← hq]
    exact transform_lookup rqs m hm rq hrq s (by simp [hs])
  · intro hlen s hs
    have hq : queryId rq s
        = "query" ++ rq.RefId ++ "_" ++ strings.ReplaceAllDotUnderscore s := by
      simp [queryId, hid, hlen]
    refine ⟨strings.ReplaceAllDotUnderscore s, ReplaceAllDotUnderscore_toList s,
      dot_not_mem_ReplaceAllDotUnderscore s, hq, fun m hm => ?_⟩
    rw [← hq]
    exact transform_lookup rqs m hm rq hrq s hs

/-- C6, the scenarios: RefId `A` with statistics `Average` and `Maximum` and no
client id expands to exactly the identifiers `queryA_Average` and
`queryA_Maximum`; RefId `P` with statistics `p99.9` and `Average` expands to
exactly `queryP_p99_9` and `queryP_Average`. -/
theorem generated_identifier_scenario :
    scenarioQueryA ∈ [scenarioQueryA] ∧ scenarioQueryA.Id = "" ∧
      (∃ m, transformRequestQueriesToCloudWatchQueries [scenarioQueryA] = .ok m ∧
        m.keys = ["queryA_Average", "queryA_Maximum"] ∧
        m.lookup "queryA_Average" = some (newCloudWatchQuery scenarioQueryA "Average") ∧
        m.lookup "queryA_Maximum" = some (newCloudWatchQuery scenarioQueryA "Maximum")) ∧
      percentileQuery ∈ [percentileQuery] ∧ percentileQuery.Id = "" ∧
      queryId percentileQuery "p99.9" = "queryP_p99_9" ∧
      (∃ m, transformRequestQueriesToCloudWatchQueries [percentileQuery] = .ok m ∧
        m.keys = ["queryP_p99_9", "queryP_Average"] ∧
        m.lookup "queryP_p99_9" = some (newCloudWatchQuery percentileQuery "p99.9") ∧
        m.lookup "queryP.p99.9" = none ∧ m.lookup "queryP_p99.9" = none) := by
  have h := (generated_identifier [scenarioQueryA] scenarioQueryA
    (List.mem_singleton.2 rfl) rfl).2 (by decide)
  have hp := (generated_identifier [percentileQuery] percentileQuery
    (List.mem_singleton.2 rfl) rfl).2 (by decide)
  obtain ⟨a, ha, _, _, hla⟩ := h "Average" (by decide)
  obtain ⟨b, hb, _, _, hlb⟩ := h "Maximum" (by decide)
  obtain ⟨c, hc, _, hqc, hlc⟩ := hp "p99.9" (by decide)
  have hae : a = "Average" := String.ext (ha.trans (by decide))
  have hbe : b = "Maximum" := String.ext (hb.trans (by decide))
  have hce : c = "p99_9" := String.ext (hc.trans (by decide))
  subst hae hbe hce
  refine ⟨List.mem_singleton.2 rfl, rfl, ⟨_, rfl, by decide, hla _ rfl, hlb _ rfl⟩,
    List.mem_singleton.2 rfl, rfl, hqc, ⟨_, rfl, by decide, hlc _ rfl, by decide, by decide⟩⟩

/-- C7: when the expansion succeeds, the map has as many entries as there are
(request query, statistic) pairs, and the entry stored under the derived
identifier of a pair has that identifier as Id, the statistic as Stats and the
shared fields of the request query. -/
theorem transform_entries (rqs : List requestQuery) (m : GoMap cloudWatchQuery)
    (h : transformRequestQueriesToCloudWatchQueries rqs = .ok m) :
    m.length = (rqs.map (fun rq => rq.Statistics.length)).sum ∧
      m.keys.Nodup ∧
      ∀ rq ∈ rqs, ∀ stat ∈ rq.Statistics,
        ∃ q, m.lookup (queryId rq stat) = some q ∧
          q.Id = queryId rq stat ∧ q.Stats = stat ∧ q.RefId = rq.RefId ∧
          q.Region = rq.Region ∧ q.Namespace = rq.Namespace ∧
          q.MetricName = rq.MetricName ∧ q.Dimensions = rq.Dimensions ∧
          q.Period = rq.Period ∧ q.Alias = rq.Alias ∧ q.Expression = rq.Expression ∧
          q.ReturnData = rq.ReturnData ∧ q.HighResolution = rq.HighResolution ∧
          q.MatchExact = rq.MatchExact := by
  refine ⟨?_, ?_, ?_⟩
  · obtain ⟨_, rfl⟩ := (transform_ok_iff rqs m).1 h
    simp [length_expansionPairs]
  · obtain ⟨hnd, rfl⟩ := (transform_ok_iff rqs m).1 h
    rw [keys_map_expansionEntry]
    exact hnd
  · intro rq hrq stat hstat
    exact ⟨newCloudWatchQuery rq stat, transform_lookup rqs m h rq hrq stat hstat,
      rfl, rfl, rfl, rfl, rfl, rfl, rfl, rfl, rfl, rfl, rfl, rfl, rfl⟩

/-- C7, at the scenario query: the expansion of RefId `A` with two statistics
succeeds with two entries. -/
theorem transform_entries_scenario :
    ∃ m, transformRequestQueriesToCloudWatchQueries [scenarioQueryA] = .ok m ∧
      m.length = 2 ∧
      ∃ q, m.lookup "queryA_Maximum" = some q ∧ q.Stats = "Maximum" ∧ q.RefId = "A" := by
  refine ⟨_, rfl, ?_, ?_⟩
  · exact (transform_entries [scenarioQueryA] _ rfl).1
  · obtain ⟨q, h1, _, h2, h3, _⟩ :=
      (transform_entries [scenarioQueryA] _ rfl).2.2 scenarioQueryA
        (List.mem_singleton.2 rfl) "Maximum" (by decide)
    exact ⟨q, h1, h2, h3⟩

/-! ## Maps: more on writing -/

theorem GoMap.lookup_set {V : Type} (m : GoMap V) (k : String) (v : V) (k' : String) :
    (m.set k v).lookup k' = if k' = k then some v else m.lookup k' := by
  induction m with
  | nil =>
    by_cases h : k' = k
    · simp [GoMap.set, List.lookup, h]
    · have hb : (k' == k) = false := by simpa using h
      simp [GoMap.set, List.lookup, h, hb]
  | cons kv m ih =>
    obtain ⟨k₀, v₀⟩ := kv
    by_cases h0 : k₀ = k
    · subst h0
      by_cases h : k' = k₀
      · simp [GoMap.set, List.lookup, h]
      · have hb : (k' == k₀) = false := by simpa using h
        simp [GoMap.set, List.lookup, h, hb]
    · simp only [GoMap.set, h0, if_false]
      by_cases h : k' = k₀
      · subst h
        simp [List.lookup, h0]
      · have hb : (k' == k₀) = false := by simpa using h
        simp only [List.lookup, hb, ih]

theorem GoMap.mem_keys_set {V : Type} (m : GoMap V) (k : String) (v : V) (k' : String) :
    k' ∈ (m.set k v).keys ↔ k' = k ∨ k' ∈ m.keys := by
  rw [← GoMap.lookup_isSome_iff, ← GoMap.lookup_isSome_iff, GoMap.lookup_set]
  by_cases h : k' = k <;> simp [h]

theorem GoMap.nodup_keys_set {V : Type} (m : GoMap V) (k : String) (v : V)
    (h : m.keys.Nodup) : (m.set k v).keys.Nodup := by
  induction m with
  | nil => simp [GoMap.set, GoMap.keys]
  | cons kv m ih =>
    obtain ⟨k₀, v₀⟩ := kv
    have h' : k₀ ∉ GoMap.keys m ∧ (GoMap.keys m).Nodup := by
      simpa [GoMap.keys] using h
    by_cases h0 : k₀ = k
    · subst h0
      simpa [GoMap.set, GoMap.keys] using h
    · simp only [GoMap.set, h0, if_false]
      have hk : GoMap.keys ((k₀, v₀) :: GoMap.set m k v) = k₀ :: (GoMap.set m k v).keys := rfl
      rw [hk, List.nodup_cons]
      refine ⟨fun hmem => ?_, ih h'.2⟩
      rcases (GoMap.mem_keys_set m k v k₀).1 hmem with e | e
      · exact h0 e
      · exact h'.1 e

theorem GoMap.lookup_map {V W : Type} (m : GoMap V) (f : String → V → W) (k : String) :
    List.lookup k (m.map (fun kv => (kv.1, f kv.1 kv.2))) = (m.lookup k).map (f k) := by
  induction m with
  | nil => rfl
  | cons kv m ih =>
    obtain ⟨k₀, v₀⟩ := kv
    by_cases h : k = k₀
    · subst h
      simp [List.lookup]
    · have hb : (k == k₀) = false := by simpa using h
      simp only [List.map_cons, List.lookup, hb, ih]

/-! ## Regrouping -/

theorem responsesOf_eq_nil_iff (refID : String) (rs : List cloudwatchResponse) :
    responsesOf refID rs = [] ↔ refID ∉ rs.map (fun r => r.RefId) := by
  simp only [responsesOf, List.filter_eq_nil_iff, decide_eq_true_eq, List.mem_map, not_exists,
    not_and]

theorem mem_responsesOf (refID : String) (rs : List cloudwatchResponse) (r : cloudwatchResponse) :
    r ∈ responsesOf refID rs ↔ r ∈ rs ∧ r.RefId = refID := by
  simp [responsesOf]

theorem groupResponsesByRefID_cons (res : cloudwatchResponse) (rest : List cloudwatchResponse)
    (m : GoMap (List cloudwatchResponse)) :
    groupResponsesByRefID (res :: rest) m =
      groupResponsesByRefID rest
        (m.set res.RefId ((m.lookup res.RefId).getD [] ++ [res])) := by
  simp only [groupResponsesByRefID]
  cases List.lookup res.RefId m <;> rfl

theorem groupResponsesByRefID_lookup (rs : List cloudwatchResponse)
    (m : GoMap (List cloudwatchResponse)) (refID : String) :
    (groupResponsesByRefID rs m).lookup refID =
      if responsesOf refID rs = [] then m.lookup refID
      else some ((m.lookup refID).getD [] ++ responsesOf refID rs) := by
  induction rs generalizing m with
  | nil => simp [groupResponsesByRefID, responsesOf]
  | cons res rest ih =>
    rw [groupResponsesByRefID_cons, ih, GoMap.lookup_set]
    by_cases h : refID = res.RefId
    · subst h
      have hcons : responsesOf res.RefId (res :: rest) = res :: responsesOf res.RefId rest := by
        simp [responsesOf]
      rw [hcons]
      by_cases hr : responsesOf res.RefId rest = []
      · simp [hr]
      · simp [hr]
    · have hcons : responsesOf refID (res :: rest) = responsesOf refID rest := by
        simp [responsesOf, Ne.symm h]
      rw [hcons]
      simp [h]

theorem groupResponsesByRefID_mem_keys (rs : List cloudwatchResponse) (refID : String) :
    refID ∈ (groupResponsesByRefID rs []).keys ↔ refID ∈ rs.map (fun r => r.RefId) := by
  rw [← GoMap.lookup_isSome_iff, groupResponsesByRefID_lookup]
  by_cases h : responsesOf refID rs = []
  · have := (responsesOf_eq_nil_iff refID rs).1 h
    simp [h, this, List.lookup]
  · have := (not_congr (responsesOf_eq_nil_iff refID rs)).1 h
    simp only [h, if_false, Option.isSome_some, true_iff]
    exact not_not.1 this

theorem groupResponsesByRefID_nodup (rs : List cloudwatchResponse)
    (m : GoMap (List cloudwatchResponse)) (h : m.keys.Nodup) :
    (groupResponsesByRefID rs m).keys.Nodup := by
  induction rs generalizing m with
  | nil => exact h
  | cons res rest ih =>
    rw [groupResponsesByRefID_cons]
    exact ih _ (GoMap.nodup_keys_set m _ _ h)

theorem groupResponsesByRefID_mem (rs : List cloudwatchResponse) (refID : String)
    (g : List cloudwatchResponse) (h : (refID, g) ∈ groupResponsesByRefID rs []) :
    g = responsesOf refID rs ∧ refID ∈ rs.map (fun r => r.RefId) := by
  have hl := GoMap.lookup_of_mem _ (groupResponsesByRefID_nodup rs [] (by simp [GoMap.keys]))
    refID g h
  rw [groupResponsesByRefID_lookup] at hl
  by_cases hr : responsesOf refID rs = []
  · simp [hr, List.lookup] at hl
  · simp only [hr, if_false, List.lookup, Option.getD_none, List.nil_append,
      Option.some.injEq] at hl
    exact ⟨hl.symm, not_not.1 ((not_congr (responsesOf_eq_nil_iff refID rs)).1 hr)⟩

theorem responsesLoop_eq_some (rs : List cloudwatchResponse) (acc : Accumulated)
    (h : ∀ r ∈ rs, r.series ≠ none) :
    responsesLoop rs acc = some
      { timeSeries := acc.timeSeries ++ concatSeries rs
        searchExpressions := acc.searchExpressions ++
          (rs.filter (fun r => decide (r.SearchExpression.length > 0))).map
            (fun r => r.SearchExpression)
        ids := acc.ids ++ rs.map (fun r => r.Id)
        requestExceededMaxLimit :=
          acc.requestExceededMaxLimit || rs.any (fun r => r.RequestExceededMaxLimit) } := by
  induction rs generalizing acc with
  | nil => simp [responsesLoop, concatSeries]
  | cons r rs ih =>
    have hr := h r (List.mem_cons_self _ _)
    cases hs : r.series with
    | none => exact absurd hs hr
    | some series =>
      simp only [responsesLoop, hs]
      rw [ih _ (fun x hx => h x (List.mem_cons_of_mem _ hx))]
      by_cases hse : r.SearchExpression.length > 0
      · simp [hse, concatSeries, hs, Bool.or_assoc]
      · simp [hse, concatSeries, hs, Bool.or_assoc]

theorem responsesLoop_eq_none (rs : List cloudwatchResponse) (acc : Accumulated)
    (h : ∃ r ∈ rs, r.series = none) : responsesLoop rs acc = none := by
  induction rs generalizing acc with
  | nil => simp at h
  | cons r rs ih =>
    cases hs : r.series with
    | none => simp [responsesLoop, hs]
    | some series =>
      simp only [responsesLoop, hs]
      apply ih
      obtain ⟨x, hx, hxn⟩ := h
      rcases List.mem_cons.1 hx with e | e
      · subst e
        rw [hs] at hxn
        cases hxn
      · exact ⟨x, e, hxn⟩

theorem buildQueryResult_eq_some (S : SliceSorter) (refID : String)
    (rs : List cloudwatchResponse) (h : ∀ r ∈ rs, r.series ≠ none) :
    buildQueryResult S refID rs = some (regroupedResult S refID rs) := by
  unfold buildQueryResult
  rw [responsesLoop_eq_some rs _ h]
  cases hany : rs.any (fun r => r.RequestExceededMaxLimit) <;>
    simp [regroupedResult, hany, tsdb.NewQueryResult, GoMap.set]

theorem buildQueryResult_eq_none (S : SliceSorter) (refID : String)
    (rs : List cloudwatchResponse) (h : ∃ r ∈ rs, r.series = none) :
    buildQueryResult S refID rs = none := by
  unfold buildQueryResult
  rw [responsesLoop_eq_none rs _ h]

theorem resultsLoop_eq_some (S : SliceSorter) (g : GoMap (List cloudwatchResponse))
    (results : GoMap QueryResult) (hg : ∀ kv ∈ g, ∀ r ∈ kv.2, r.series ≠ none)
    (hnd : (results.keys ++ g.keys).Nodup) :
    resultsLoop S g results =
      some (results ++ g.map (fun kv => (kv.1, regroupedResult S kv.1 kv.2))) := by
  induction g generalizing results with
  | nil => simp [resultsLoop]
  | cons kv g ih =>
    obtain ⟨refID, responses⟩ := kv
    have hnot : refID ∉ results.keys := by
      intro hmem
      rw [List.nodup_append] at hnd
      exact hnd.2.2 hmem (by simp [GoMap.keys])
    simp only [resultsLoop, buildQueryResult_eq_some S refID responses
      (hg (refID, responses) (List.mem_cons_self _ _))]
    rw [GoMap.set_of_not_mem results _ _ hnot, ih]
    · simp
    · exact fun kv hkv => hg kv (List.mem_cons_of_mem _ hkv)
    · have : GoMap.keys (results ++ [(refID, regroupedResult S refID responses)])
          = results.keys ++ [refID] := by simp [GoMap.keys]
      rw [this, List.append_assoc]
      simpa [GoMap.keys] using hnd

theorem resultsLoop_eq_none (S : SliceSorter) (g : GoMap (List cloudwatchResponse))
    (results : GoMap QueryResult) (hg : ∃ kv ∈ g, ∃ r ∈ kv.2, r.series = none) :
    resultsLoop S g results = none := by
  induction g generalizing results with
  | nil => simp at hg
  | cons kv g ih =>
    obtain ⟨refID, responses⟩ := kv
    by_cases hb : ∃ r ∈ responses, r.series = none
    · simp [resultsLoop, buildQueryResult_eq_none S refID responses hb]
    · have hall : ∀ r ∈ responses, r.series ≠ none := fun r hr e => hb ⟨r, hr, e⟩
      simp only [resultsLoop, buildQueryResult_eq_some S refID responses hall]
      apply ih
      obtain ⟨kv, hkv, hr⟩ := hg
      rcases List.mem_cons.1 hkv with e | e
      · subst e
        exact absurd hr hb
      · exact ⟨kv, e, hr⟩

/-- The map that `transformQueryResponseToQueryResult` returns when no `series`
pointer is nil. -/
theorem transform_eq_some (S : SliceSorter) (rs : List cloudwatchResponse)
    (h : ∀ r ∈ rs, r.series ≠ none) :
    transformQueryResponseToQueryResult S rs =
      some ((groupResponsesByRefID rs []).map
        (fun kv => (kv.1, regroupedResult S kv.1 kv.2))) := by
  unfold transformQueryResponseToQueryResult
  rw [resultsLoop_eq_some]
  · simp
  · rintro ⟨refID, g⟩ hkv r hr
    obtain ⟨hg, _⟩ := groupResponsesByRefID_mem rs refID g hkv
    rw [hg] at hr
    exact h r ((mem_responsesOf refID rs r).1 hr).1
  · simpa [GoMap.keys] using groupResponsesByRefID_nodup rs [] (by simp [GoMap.keys])

theorem transform_eq_none_iff (S : SliceSorter) (rs : List cloudwatchResponse) :
    transformQueryResponseToQueryResult S rs = none ↔ ∃ r ∈ rs, r.series = none := by
  constructor
  · intro hn
    by_contra hex
    rw [transform_eq_some S rs (fun r hr e => hex ⟨r, hr, e⟩)] at hn
    cases hn
  · rintro ⟨r, hr, hnil⟩
    unfold transformQueryResponseToQueryResult
    apply resultsLoop_eq_none
    have hkey : r.RefId ∈ (groupResponsesByRefID rs []).keys :=
      (groupResponsesByRefID_mem_keys rs r.RefId).2 (List.mem_map.2 ⟨r, hr, rfl⟩)
    obtain ⟨⟨k, g⟩, hkg, hk⟩ := List.mem_map.1 hkey
    simp only at hk
    subst hk
    obtain ⟨hg, _⟩ := groupResponsesByRefID_mem rs _ g hkg
    exact ⟨(r.RefId, g), hkg, r, by rw [hg]; exact (mem_responsesOf _ rs r).2 ⟨hr, rfl⟩, hnil⟩

/-- What is stored under each RefID of the returned map. -/
theorem transform_lookup_eq (S : SliceSorter) (rs : List cloudwatchResponse)
    (m : GoMap QueryResult) (hm : transformQueryResponseToQueryResult S rs = some m)
    (refID : String) :
    m.lookup refID =
      if refID ∈ rs.map (fun r => r.RefId) then
        some (regroupedResult S refID (responsesOf refID rs))
      else none := by
  have hall : ∀ r ∈ rs, r.series ≠ none := by
    intro r hr e
    rw [(transform_eq_none_iff S rs).2 ⟨r, hr, e⟩] at hm
    cases hm
  rw [transform_eq_some S rs hall] at hm
  cases hm
  rw [GoMap.lookup_map, groupResponsesByRefID_lookup]
  by_cases hr : responsesOf refID rs = []
  · have := (responsesOf_eq_nil_iff refID rs).1 hr
    simp [hr, this, List.lookup]
  · have := not_not.1 ((not_congr (responsesOf_eq_nil_iff refID rs)).1 hr)
    simp [hr, this, List.lookup]

theorem transform_keys (S : SliceSorter) (rs : List cloudwatchResponse)
    (m : GoMap QueryResult) (hm : transformQueryResponseToQueryResult S rs = some m) :
    m.keys.Nodup ∧ ∀ refID, refID ∈ m.keys ↔ refID ∈ rs.map (fun r => r.RefId) := by
  have hall : ∀ r ∈ rs, r.series ≠ none := by
    intro r hr e
    rw [(transform_eq_none_iff S rs).2 ⟨r, hr, e⟩] at hm
    cases hm
  rw [transform_eq_some S rs hall] at hm
  cases hm
  have hk : GoMap.keys ((groupResponsesByRefID rs []).map
      (fun kv => (kv.1, regroupedResult S kv.1 kv.2))) = (groupResponsesByRefID rs []).keys := by
    simp [GoMap.keys, Function.comp_def]
  rw [hk]
  exact ⟨groupResponsesByRefID_nodup rs [] (by simp [GoMap.keys]),
    groupResponsesByRefID_mem_keys rs⟩

theorem concatSeries_perm {rs rs' : List cloudwatchResponse} (h : rs'.Perm rs) :
    (concatSeries rs').Perm (concatSeries rs) :=
  List.Perm.flatMap_right _ h

theorem any_perm {α : Type} (p : α → Bool) {l l' : List α} (h : l'.Perm l) :
    l'.any p = l.any p := by
  rw [Bool.eq_iff_iff, List.any_eq_true, List.any_eq_true]
  exact ⟨fun ⟨x, hx, hp⟩ => ⟨x, h.mem_iff.1 hx, hp⟩, fun ⟨x, hx, hp⟩ => ⟨x, h.mem_iff.2 hx, hp⟩⟩

theorem regroupedResult_sorted (S : SliceSorter) (refID : String)
    (rs : List cloudwatchResponse) :
    (regroupedResult S refID rs).Series.Pairwise (fun a b => a.Name ≤ b.Name) :=
  (S.sorted (concatSeries rs)).imp (fun h => not_lt.1 h)

theorem regroupedResult_perm (S : SliceSorter) (refID : String)
    (rs : List cloudwatchResponse) :
    (regroupedResult S refID rs).Series.Perm (concatSeries rs) :=
  S.perm (concatSeries rs)

theorem transform_lookup_some (S : SliceSorter) (rs : List cloudwatchResponse)
    (m : GoMap QueryResult) (hm : transformQueryResponseToQueryResult S rs = some m)
    (refID : String) (q : QueryResult) (hq : m.lookup refID = some q) :
    refID ∈ rs.map (fun r => r.RefId) ∧ q = regroupedResult S refID (responsesOf refID rs) := by
  rw [transform_lookup_eq S rs m hm refID] at hq
  by_cases h : refID ∈ rs.map (fun r => r.RefId)
  · rw [if_pos h] at hq
    exact ⟨h, (Option.some.inj hq).symm⟩
  · rw [if_neg h] at hq
    cases hq

/-- C3: when no `series` pointer is nil, a map is returned, and under every RefID
of it the series are in non-decreasing order of name and are a permutation of the
concatenation of the series of the responses carrying that RefId. -/
theorem regrouped_series_sorted_perm (S : SliceSorter) (rs : List cloudwatchResponse)
    (h : ∀ r ∈ rs, r.series ≠ none) :
    ∃ m, transformQueryResponseToQueryResult S rs = some m ∧
      ∀ refID ∈ m.keys, ∃ q, m.lookup refID = some q ∧
        q.Series.Pairwise (fun a b => a.Name ≤ b.Name) ∧
        q.Series.Perm (concatSeries (responsesOf refID rs)) := by
  refine ⟨_, transform_eq_some S rs h, fun refID hk => ?_⟩
  have hl := transform_lookup_eq S rs _ (transform_eq_some S rs h) refID
  have hmem := ((transform_keys S rs _ (transform_eq_some S rs h)).2 refID).1 hk
  rw [if_pos hmem] at hl
  exact ⟨_, hl, regroupedResult_sorted S refID _, regroupedResult_perm S refID _⟩

/-- C3, the scenario: the responses of `queryA_Maximum` (series `Y`) and
`queryA_Average` (series `X`), both of RefId `A` and given in this order, regroup
into the single result `A` with the series `X`, `Y`. -/
theorem regrouped_series_scenario :
    (∀ r ∈ [responseMaximum, responseAverage], r.series ≠ none) ∧
      ∃ m, transformQueryResponseToQueryResult insertionSorter
          [responseMaximum, responseAverage] = some m ∧
        m.keys = ["A"] ∧
        ∃ q, m.lookup "A" = some q ∧ q.Series = [seriesX, seriesY] ∧
          q.Series.Pairwise (fun a b => a.Name ≤ b.Name) ∧
          q.Series.Perm (concatSeries (responsesOf "A" [responseMaximum, responseAverage])) := by
  have hnil : ∀ r ∈ [responseMaximum, responseAverage], r.series ≠ none := by decide
  obtain ⟨m, hm, hall⟩ :=
    regrouped_series_sorted_perm insertionSorter [responseMaximum, responseAverage] hnil
  have hval : transformQueryResponseToQueryResult insertionSorter
      [responseMaximum, responseAverage]
        = some [("A", regroupedResult insertionSorter "A"
            [responseMaximum, responseAverage])] := by decide
  have hmeq := Option.some.inj (hm.symm.trans hval)
  subst hmeq
  obtain ⟨q, hq, hs, hp⟩ := hall "A" (by decide)
  have hqeq : q = regroupedResult insertionSorter "A" [responseMaximum, responseAverage] := by
    have : List.lookup "A" [("A", regroupedResult insertionSorter "A"
        [responseMaximum, responseAverage])] = some (regroupedResult insertionSorter "A"
        [responseMaximum, responseAverage]) := by decide
    exact Option.some.inj (hq.symm.trans this)
  refine ⟨hnil, _, hm, by decide, q, hq, ?_, hs, hp⟩
  rw [hqeq]
  decide

/-- C8: a map is returned unless some `series` pointer is nil; its keys are
pairwise distinct and are exactly the RefId values of the input, so that the
empty input gives the empty map, and the result stored under a key has that key
as RefId. -/
theorem regrouped_keys (S : SliceSorter) (rs : List cloudwatchResponse) :
    (transformQueryResponseToQueryResult S rs = none ↔ ∃ r ∈ rs, r.series = none) ∧
      ∀ m, transformQueryResponseToQueryResult S rs = some m →
        m.keys.Nodup ∧
        (∀ refID, refID ∈ m.keys ↔ refID ∈ rs.map (fun r => r.RefId)) ∧
        (rs = [] → m = []) ∧
        ∀ refID q, m.lookup refID = some q → q.RefId = refID := by
  refine ⟨transform_eq_none_iff S rs, fun m hm => ?_⟩
  obtain ⟨hnd, hkeys⟩ := transform_keys S rs m hm
  refine ⟨hnd, hkeys, ?_, ?_⟩
  · rintro rfl
    cases m with
    | nil => rfl
    | cons kv m =>
      have := (hkeys kv.1).1 (by simp [GoMap.keys])
      simp at this
  · intro refID q hq
    rw [(transform_lookup_some S rs m hm refID q hq).2]
    rfl

/-- C9: the advisory message is a fixed non-empty text; a result carries it
exactly when some response of its RefId has `RequestExceededMaxLimit` set, and has
an empty error string otherwise; in both cases its `Error` is unset and its
series are all the series of the responses of that RefId. -/
theorem exceeded_limit_is_or (S : SliceSorter) (rs : List cloudwatchResponse) :
    exceededMessage ≠ "" ∧
      (transformQueryResponseToQueryResult S rs = none ↔ ∃ r ∈ rs, r.series = none) ∧
      ∀ m, transformQueryResponseToQueryResult S rs = some m →
        ∀ refID q, m.lookup refID = some q →
          (q.ErrorString = exceededMessage ↔
            ∃ r ∈ rs, r.RefId = refID ∧ r.RequestExceededMaxLimit = true) ∧
          ((¬ ∃ r ∈ rs, r.RefId = refID ∧ r.RequestExceededMaxLimit = true) →
            q.ErrorString = "") ∧
          q.Error = none ∧
          q.Series.Perm (concatSeries (responsesOf refID rs)) := by
  have hne : exceededMessage ≠ "" := by decide
  refine ⟨hne, transform_eq_none_iff S rs, fun m hm refID q hq => ?_⟩
  obtain ⟨_, rfl⟩ := transform_lookup_some S rs m hm refID q hq
  have hany : (responsesOf refID rs).any (fun r => r.RequestExceededMaxLimit) = true ↔
      ∃ r ∈ rs, r.RefId = refID ∧ r.RequestExceededMaxLimit = true := by
    rw [List.any_eq_true]
    constructor
    · rintro ⟨r, hr, hflag⟩
      obtain ⟨h1, h2⟩ := (mem_responsesOf refID rs r).1 hr
      exact ⟨r, h1, h2, hflag⟩
    · rintro ⟨r, h1, h2, hflag⟩
      exact ⟨r, (mem_responsesOf refID rs r).2 ⟨h1, h2⟩, hflag⟩
  refine ⟨?_, ?_, rfl, regroupedResult_perm S refID _⟩
  · rw [← hany]
    cases hb : (responsesOf refID rs).any (fun r => r.RequestExceededMaxLimit)
    · simp [regroupedResult, hb, Ne.symm hne]
    · simp [regroupedResult, hb]
  · intro hno
    have hb : (responsesOf refID rs).any (fun r => r.RequestExceededMaxLimit) = false := by
      rw [Bool.eq_false_iff]
      exact fun h => hno (hany.1 h)
    simp [regroupedResult, hb]

theorem regroupedResult_meta_lookup (S : SliceSorter) (refID : String)
    (rs : List cloudwatchResponse) (key : String) :
    (regroupedResult S refID rs).Meta.lookup key =
      if key = "searchExpressions" then
        some ((rs.filter (fun r => decide (r.SearchExpression.length > 0))).map
          (fun r => r.SearchExpression))
      else if key = "Ids" then some (rs.map (fun r => r.Id))
      else none := by
  by_cases h1 : key = "searchExpressions"
  · subst h1
    simp [regroupedResult, List.lookup]
  · have hb1 : (key == "searchExpressions") = false := by simpa using h1
    by_cases h2 : key = "Ids"
    · subst h2
      simp [regroupedResult, List.lookup, hb1]
    · have hb2 : (key == "Ids") = false := by simpa using h2
      simp [regroupedResult, List.lookup, hb1, hb2, h1, h2]

/-- C4 (as stated, refuted): two responses of RefId `A` with identifiers `a` and
`b`, each with one series labelled `cpu`.  Swapping them changes the result of
`A`: the metadata `Ids` lists the identifiers in input order, and the two series
of equal name come out in input order. -/
theorem regroup_depends_on_input_order :
    [responseA2, responseA1].Perm [responseA1, responseA2] ∧
      ∃ m m', transformQueryResponseToQueryResult insertionSorter [responseA1, responseA2]
            = some m ∧
        transformQueryResponseToQueryResult insertionSorter [responseA2, responseA1]
            = some m' ∧
        ∃ q q', m.lookup "A" = some q ∧ m'.lookup "A" = some q' ∧
          q.Meta.lookup "Ids" = some ["a", "b"] ∧ q'.Meta.lookup "Ids" = some ["b", "a"] ∧
          q.Series = [seriesCpu1, seriesCpu2] ∧ q'.Series = [seriesCpu2, seriesCpu1] ∧
          q ≠ q' := by
  refine ⟨List.Perm.swap _ _ _, _, _, rfl, rfl, _, _, rfl, rfl, ?_, ?_, ?_, ?_, ?_⟩ <;> decide

/-- C4 (amended): for a permutation of the input, a map is returned for the one
list exactly when one is returned for the other; the two maps have the same keys,
and under each RefID the same error string, `Error` and RefId, the same sequence
of series names, series that agree up to the order of series of equal name, and
the same metadata keys with lists that agree up to order. -/
theorem regroup_perm_invariant (S : SliceSorter) (rs rs' : List cloudwatchResponse)
    (hp : rs'.Perm rs) :
    (transformQueryResponseToQueryResult S rs' = none ↔
        transformQueryResponseToQueryResult S rs = none) ∧
      ∀ m m', transformQueryResponseToQueryResult S rs = some m →
        transformQueryResponseToQueryResult S rs' = some m' →
        (∀ refID, refID ∈ m'.keys ↔ refID ∈ m.keys) ∧
        ∀ refID q, m.lookup refID = some q →
          ∃ q', m'.lookup refID = some q' ∧
            q'.ErrorString = q.ErrorString ∧ q'.Error = q.Error ∧ q'.RefId = q.RefId ∧
            q'.Series.Perm q.Series ∧
            q'.Series.map (fun t => t.Name) = q.Series.map (fun t => t.Name) ∧
            (∀ key, key ∈ q'.Meta.keys ↔ key ∈ q.Meta.keys) ∧
            ∀ key l, q.Meta.lookup key = some l →
              ∃ l', q'.Meta.lookup key = some l' ∧ l'.Perm l := by
  constructor
  · rw [transform_eq_none_iff, transform_eq_none_iff]
    exact ⟨fun ⟨r, hr, hn⟩ => ⟨r, hp.mem_iff.1 hr, hn⟩, fun ⟨r, hr, hn⟩ => ⟨r, hp.mem_iff.2 hr, hn⟩⟩
  · intro m m' hm hm'
    have hmap : ∀ refID, refID ∈ rs'.map (fun r => r.RefId) ↔ refID ∈ rs.map (fun r => r.RefId) :=
      fun refID => (hp.map _).mem_iff
    refine ⟨fun refID => ?_, fun refID q hq => ?_⟩
    · rw [(transform_keys S rs' m' hm').2, (transform_keys S rs m hm).2, hmap]
    · obtain ⟨hmem, rfl⟩ := transform_lookup_some S rs m hm refID q hq
      have hl' := transform_lookup_eq S rs' m' hm' refID
      rw [if_pos ((hmap refID).2 hmem)] at hl'
      have hg : (responsesOf refID rs').Perm (responsesOf refID rs) := hp.filter _
      have hseries : (regroupedResult S refID (responsesOf refID rs')).Series.Perm
          (regroupedResult S refID (responsesOf refID rs)).Series :=
        ((regroupedResult_perm S refID _).trans (concatSeries_perm hg)).trans
          (regroupedResult_perm S refID _).symm
      refine ⟨_, hl', ?_, rfl, rfl, hseries, ?_, ?_, ?_⟩
      · simp only [regroupedResult]
        rw [any_perm _ hg]
      · apply List.eq_of_perm_of_sorted (r := fun a b : String => a ≤ b) (hseries.map _)
        · exact List.pairwise_map.2 (regroupedResult_sorted S refID _)
        · exact List.pairwise_map.2 (regroupedResult_sorted S refID _)
      · intro key
        simp [regroupedResult, GoMap.keys]
      · intro key l hl
        rw [regroupedResult_meta_lookup] at hl ⊢
        by_cases h1 : key = "searchExpressions"
        · rw [if_pos h1] at hl ⊢
          cases hl
          exact ⟨_, rfl, (hg.filter _).map _⟩
        · rw [if_neg h1] at hl ⊢
          by_cases h2 : key = "Ids"
          · rw [if_pos h2] at hl ⊢
            cases hl
            exact ⟨_, rfl, hg.map _⟩
          · rw [if_neg h2] at hl
            cases hl

/-- C4 (amended), at the two responses of RefId `A` swapped: both orders give a
result for `A` with the same error string and the same series names. -/
theorem regroup_perm_invariant_swap :
    [responseA2, responseA1].Perm [responseA1, responseA2] ∧
      ∃ q q', (transformQueryResponseToQueryResult insertionSorter
            [responseA1, responseA2]).bind (fun m => m.lookup "A") = some q ∧
        (transformQueryResponseToQueryResult insertionSorter
            [responseA2, responseA1]).bind (fun m => m.lookup "A") = some q' ∧
        q'.ErrorString = q.ErrorString ∧
        q'.Series.map (fun t => t.Name) = q.Series.map (fun t => t.Name) ∧
        q'.Series.Perm q.Series := by
  have hswap : [responseA2, responseA1].Perm [responseA1, responseA2] := List.Perm.swap _ _ _
  have hm : transformQueryResponseToQueryResult insertionSorter [responseA1, responseA2]
      = some [("A", regroupedResult insertionSorter "A" [responseA1, responseA2])] := by decide
  have hm' : transformQueryResponseToQueryResult insertionSorter [responseA2, responseA1]
      = some [("A", regroupedResult insertionSorter "A" [responseA2, responseA1])] := by decide
  have hq : List.lookup "A" [("A", regroupedResult insertionSorter "A" [responseA1, responseA2])]
      = some (regroupedResult insertionSorter "A" [responseA1, responseA2]) := by decide
  obtain ⟨q', hq', h1, _, _, h2, h3, _⟩ :=
    ((regroup_perm_invariant insertionSorter [responseA1, responseA2] [responseA2, responseA1]
      hswap).2 _ _ hm hm').2 "A" _ hq
  refine ⟨hswap, _, q', ?_, ?_, h1, h3, h2⟩
  · rw [hm]
    exact hq
  · rw [hm']
    exact hq'

/-! ## `executeTimeSeriesQuery`: errors of parsing and of request building -/

theorem executeTimeSeriesQuery_parse_error {Ctx Input : Type} (C : Collaborators Ctx Input)
    (queryContext : Ctx) (err : GoError) (h : C.parseQueries queryContext = .error err) :
    executeTimeSeriesQuery C queryContext = (some { Results := [] }, some err) := by
  simp [executeTimeSeriesQuery, h]

theorem executeTimeSeriesQuery_build_error {Ctx Input : Type} (C : Collaborators Ctx Input)
    (queryContext : Ctx) (queries : GoMap cloudWatchQuery) (err : GoError)
    (h : C.parseQueries queryContext = .ok queries)
    (hb : buildInputsLoop C queryContext (groupQueriesByRegion queries) [] = .error err) :
    executeTimeSeriesQuery C queryContext = (some { Results := [] }, some err) := by
  simp [executeTimeSeriesQuery, h, hb]

/-- C10 (the code at the failing input): two request queries of RefId `A` and `B`
share the client id `m1`.  The expansion fails with an error attributed to `B`;
`executeTimeSeriesQuery` hands that error back as its top-level error, with a
response whose `Results` has no entry for `B`. -/
theorem query_builder_error_returned_top_level :
    transformRequestQueriesToCloudWatchQueries [clashQueryA, clashQueryB]
        = .error { err := "Query id m1 is not unique", RefID := "B" } ∧
      executeTimeSeriesQuery expansionCollaborators [clashQueryA, clashQueryB]
        = (some { Results := [] }, some (.queryBuilderError "Query id m1 is not unique" "B")) ∧
      (executeTimeSeriesQuery expansionCollaborators [clashQueryA, clashQueryB]).2 ≠ none ∧
      ((executeTimeSeriesQuery expansionCollaborators [clashQueryA, clashQueryB]).1.bind
        (fun response => response.Results.lookup "B")) = none := by
  have h1 : transformRequestQueriesToCloudWatchQueries [clashQueryA, clashQueryB]
      = .error { err := "Query id m1 is not unique", RefID := "B" } := by rfl
  have h2 : expansionCollaborators.parseQueries [clashQueryA, clashQueryB]
      = .error (.queryBuilderError "Query id m1 is not unique" "B") := by
    show parseQueriesByExpansion [clashQueryA, clashQueryB] = _
    simp only [parseQueriesByExpansion, h1]
  have h3 := executeTimeSeriesQuery_parse_error expansionCollaborators _ _ h2
  refine ⟨h1, h3, ?_, ?_⟩
  · rw [h3]; simp
  · rw [h3]; rfl

/-! ## The classifier, continued -/

theorem HasPrefix_iff (s p : List Char) :
    strings.HasPrefix s p = true ↔ ∃ t, s = p ++ t := by
  induction p generalizing s with
  | nil => simp [strings.HasPrefix]
  | cons c p ih =>
    cases s with
    | nil => simp [strings.HasPrefix]
    | cons d s =>
      simp only [strings.HasPrefix, Bool.and_eq_true, beq_iff_eq, ih, List.cons_append,
        List.cons.injEq]
      constructor
      · rintro ⟨rfl, t, rfl⟩
        exact ⟨t, rfl, rfl⟩
      · rintro ⟨t, rfl, rfl⟩
        exact ⟨rfl, t, rfl⟩

/-- The search `strings.Contains` finds exactly the occurrences of `substr`. -/
theorem containsChars_iff (s substr : List Char) :
    strings.containsChars s substr = true ↔ ∃ pre post, s = pre ++ substr ++ post := by
  induction s with
  | nil =>
    simp only [strings.containsChars, HasPrefix_iff]
    constructor
    · rintro ⟨t, ht⟩
      exact ⟨[], t, by simpa using ht⟩
    · rintro ⟨pre, post, h⟩
      have h' : pre = [] ∧ substr = [] ∧ post = [] := by simpa [eq_comm] using h
      exact ⟨[], by simp [h'.2.1]⟩
  | cons c s ih =>
    simp only [strings.containsChars, Bool.or_eq_true, HasPrefix_iff, ih]
    constructor
    · rintro (⟨t, ht⟩ | ⟨pre, post, h⟩)
      · exact ⟨[], t, by simpa using ht⟩
      · exact ⟨c :: pre, post, by simp [h]⟩
    · rintro ⟨pre, post, h⟩
      cases pre with
      | nil => exact Or.inl ⟨post, by simpa using h⟩
      | cons d pre =>
        simp only [List.cons_append, List.cons.injEq] at h
        exact Or.inr ⟨pre, post, h.2⟩

theorem isInferredSearchExpression_iff (q : cloudWatchQuery) :
    q.isInferredSearchExpression = true ↔
      q.Dimensions = [] ∨ (∃ kv ∈ q.Dimensions, kv.2.length > 1) ∨
        (∃ kv ∈ q.Dimensions, "*" ∈ kv.2) := by
  rw [← Bool.not_eq_false, isInferredSearchExpression_eq_false_iff]
  constructor
  · intro h
    by_contra hc
    simp only [not_or, not_exists, not_and] at hc
    exact h ⟨hc.1, fun kv hkv => Nat.le_of_not_lt (hc.2.1 kv hkv),
      fun kv hkv v hv e => hc.2.2 kv hkv (e ▸ hv)⟩
  · rintro (h | ⟨kv, hkv, hlen⟩ | ⟨kv, hkv, hstar⟩) ⟨h1, h2, h3⟩
    · exact h1 h
    · exact absurd (h2 kv hkv) (Nat.not_le_of_gt hlen)
    · exact h3 kv hkv "*" hstar rfl

/-- C13 (as stated, refuted): a query with an empty expression whose only
dimension has the single value `*`, and a query with an empty expression and no
dimension at all (so that every declared dimension has one value), are search
expressions and not metric-stat queries. -/
theorem single_valued_dimensions_not_metric_stat :
    (wildcardDimension.Expression = "" ∧
        (∀ kv ∈ wildcardDimension.Dimensions, kv.2.length = 1) ∧
        wildcardDimension.isMetricStat = false ∧
        wildcardDimension.isSearchExpression = true) ∧
      (noDimensions.Expression = "" ∧
        (∀ kv ∈ noDimensions.Dimensions, kv.2.length = 1) ∧
        noDimensions.isMetricStat = false ∧
        noDimensions.isSearchExpression = true) := by
  decide

/-- C13 (amended): a query with an empty expression, at least one declared
dimension, and exactly one value other than `*` for every declared dimension is
a metric-stat query, and neither a search nor a math expression. -/
theorem metric_stat_of_concrete_dimensions (q : cloudWatchQuery)
    (hexpr : q.Expression = "") (hdim : q.Dimensions ≠ [])
    (hone : ∀ kv ∈ q.Dimensions, kv.2.length = 1)
    (hstar : ∀ kv ∈ q.Dimensions, "*" ∉ kv.2) :
    q.isMetricStat = true ∧ q.isSearchExpression = false ∧ q.isMathExpression = false := by
  have hinf : q.isInferredSearchExpression = false :=
    (isInferredSearchExpression_eq_false_iff q).2 ⟨hdim, fun kv hkv => (hone kv hkv).le,
      fun kv hkv v hv e => hstar kv hkv (e ▸ hv)⟩
  unfold cloudWatchQuery.isMetricStat cloudWatchQuery.isSearchExpression
    cloudWatchQuery.isMathExpression cloudWatchQuery.isUserDefinedSearchExpression
  simp [hexpr, hinf, contains_empty_search]

/-- C13 (amended), at the dimensions of the scenario query `A`. -/
theorem metric_stat_of_concrete_dimensions_scenario :
    (newCloudWatchQuery scenarioQueryA "Average").isMetricStat = true ∧
      (newCloudWatchQuery scenarioQueryA "Average").isSearchExpression = false ∧
      (newCloudWatchQuery scenarioQueryA "Average").isMathExpression = false :=
  metric_stat_of_concrete_dimensions (newCloudWatchQuery scenarioQueryA "Average") rfl
    (by decide) (by decide) (by decide)

/-- C14: `isSearchExpression` holds exactly when the expression contains
`SEARCH(`, or there is no dimension, or some dimension has more than one value,
or some dimension value is `*`; so it holds of every query without dimensions
and of every query whose expression contains `SEARCH(`, whatever its
dimensions. -/
theorem isSearchExpression_iff (q : cloudWatchQuery) :
    (q.isSearchExpression = true ↔
        (∃ pre post, q.Expression.toList = pre ++ "SEARCH(".toList ++ post) ∨
          q.Dimensions = [] ∨ (∃ kv ∈ q.Dimensions, kv.2.length > 1) ∨
          (∃ kv ∈ q.Dimensions, "*" ∈ kv.2)) ∧
      (q.Dimensions = [] → q.isSearchExpression = true) ∧
      ((∃ pre post, q.Expression.toList = pre ++ "SEARCH(".toList ++ post) →
        q.isSearchExpression = true) := by
  have hiff : q.isSearchExpression = true ↔
      (∃ pre post, q.Expression.toList = pre ++ "SEARCH(".toList ++ post) ∨
        q.Dimensions = [] ∨ (∃ kv ∈ q.Dimensions, kv.2.length > 1) ∨
        (∃ kv ∈ q.Dimensions, "*" ∈ kv.2) := by
    rw [← isInferredSearchExpression_iff, ← containsChars_iff]
    unfold cloudWatchQuery.isSearchExpression cloudWatchQuery.isUserDefinedSearchExpression
      strings.Contains
    cases strings.containsChars q.Expression.toList "SEARCH(".toList <;> simp
  exact ⟨hiff, fun h => hiff.2 (Or.inr (Or.inl h)), fun h => hiff.2 (Or.inl h)⟩

/-! ## Expansion, continued -/

/-- C11 (as stated, refuted): the request query of RefId `A` is followed by one
of RefId `B` with the same client id.  The collision is attributed to `B`, and
the flattened query of `A` is not returned: the returned map is nil. -/
theorem collision_discards_other_queries :
    clashQueryA.RefId ≠ "B" ∧
      (transformRequestQueriesToCloudWatchQueries.returned [clashQueryA, clashQueryB]).2
        = some { err := "Query id m1 is not unique", RefID := "B" } ∧
      (transformRequestQueriesToCloudWatchQueries.returned [clashQueryA, clashQueryB]).1 = [] ∧
      (transformRequestQueriesToCloudWatchQueries.returned [clashQueryA, clashQueryB]).1.lookup
        (queryId clashQueryA "Average") = none ∧
      (transformRequestQueriesToCloudWatchQueries.returned [clashQueryA]).1.lookup
        (queryId clashQueryA "Average") = some (newCloudWatchQuery clashQueryA "Average") := by
  decide

/-- C11 (amended): when the expansion detects a collision, it returns the error
and a nil map: no flattened query is returned to the caller, for the offending
RefID or for any other. -/
theorem collision_returns_nil_map (rqs : List requestQuery) (e : queryError)
    (h : transformRequestQueriesToCloudWatchQueries rqs = .error e) :
    transformRequestQueriesToCloudWatchQueries.returned rqs = ([], some e) ∧
      ∀ id, (transformRequestQueriesToCloudWatchQueries.returned rqs).1.lookup id = none := by
  have hr : transformRequestQueriesToCloudWatchQueries.returned rqs = ([], some e) := by
    simp [transformRequestQueriesToCloudWatchQueries.returned, h]
  exact ⟨hr, fun id => by rw [hr]; rfl⟩

/-- C11 (amended), at the two request queries that share the client id `m1`. -/
theorem collision_returns_nil_map_clash :
    transformRequestQueriesToCloudWatchQueries [clashQueryA, clashQueryB]
        = .error { err := "Query id m1 is not unique", RefID := "B" } ∧
      transformRequestQueriesToCloudWatchQueries.returned [clashQueryA, clashQueryB]
        = ([], some { err := "Query id m1 is not unique", RefID := "B" }) :=
  ⟨rfl, (collision_returns_nil_map [clashQueryA, clashQueryB] _ rfl).1⟩

/-- C12 (as stated, refuted): a request query with the client id `m1` and the two
statistics `Average` and `Maximum` expands to the identifiers `m1_Average` and
`m1_Maximum`; no flattened query has the identifier `m1`. -/
theorem client_id_gets_statistic_suffix :
    twoStatisticsWithId.Id = "m1" ∧
      queryId twoStatisticsWithId "Average" = "m1_Average" ∧
      queryId twoStatisticsWithId "Maximum" = "m1_Maximum" ∧
      ∃ m, transformRequestQueriesToCloudWatchQueries [twoStatisticsWithId] = .ok m ∧
        m.keys = ["m1_Average", "m1_Maximum"] ∧ m.lookup "m1" = none ∧
        (m.map (fun kv => kv.2.Id)) = ["m1_Average", "m1_Maximum"] := by
  refine ⟨rfl, by decide, by decide, _, rfl, by decide, by decide, by decide⟩

/-- C12 (amended): for a request query with a non-empty client Id, the identifier
is that Id when the query has one statistic, and the Id, `_` and the text `s'`
whose characters are those of the statistic with every `.` turned into `_` (so
that no `.` is left in it) when it has more than one; when the expansion
succeeds the flattened query is stored under that key and has it as Id. -/
theorem client_identifier (rqs : List requestQuery) (rq : requestQuery)
    (hrq : rq ∈ rqs) (hid : rq.Id ≠ "") :
    ∀ s ∈ rq.Statistics,
      (rq.Statistics.length = 1 → queryId rq s = rq.Id) ∧
      (rq.Statistics.length > 1 → ∃ s' : String,
        s'.toList = s.toList.map (fun c => if c = '.' then '_' else c) ∧
        '.' ∉ s'.toList ∧
        queryId rq s = rq.Id ++ "_" ++ s') ∧
      ∀ m, transformRequestQueriesToCloudWatchQueries rqs = .ok m →
        ∃ q, m.lookup (queryId rq s) = some q ∧ q.Id = queryId rq s ∧
          q.RefId = rq.RefId ∧ q.Stats = s := by
  intro s hs
  refine ⟨fun h1 => ?_, fun h2 => ?_, fun m hm => ?_⟩
  · simp [queryId, hid, h1]
  · exact ⟨strings.ReplaceAllDotUnderscore s, ReplaceAllDotUnderscore_toList s,
      dot_not_mem_ReplaceAllDotUnderscore s, by simp [queryId, hid, h2]⟩
  · exact ⟨_, transform_lookup rqs m hm rq hrq s hs, rfl, rfl, rfl⟩

/-- C12 (amended), at request queries with the client id `m1`: one statistic keeps
the id; the statistics `p99.9` and `Average` get the ids `m1_p99_9` and
`m1_Average`, under which the flattened queries are stored. -/
theorem client_identifier_scenario :
    clashQueryA.Id ≠ "" ∧ queryId clashQueryA "Average" = "m1" ∧
      percentileQueryWithId.Id ≠ "" ∧
      queryId percentileQueryWithId "p99.9" = "m1_p99_9" ∧
      ∃ m, transformRequestQueriesToCloudWatchQueries [percentileQueryWithId] = .ok m ∧
        m.keys = ["m1_p99_9", "m1_Average"] ∧
        ∃ q, m.lookup "m1_p99_9" = some q ∧ q.Id = "m1_p99_9" ∧ q.RefId = "P" ∧
          q.Stats = "p99.9" := by
  have h1 := (client_identifier [clashQueryA] clashQueryA (List.mem_singleton.2 rfl)
    (by decide) "Average" (by decide)).1 rfl
  have h2 := client_identifier [percentileQueryWithId] percentileQueryWithId
    (List.mem_singleton.2 rfl) (by decide) "p99.9" (by decide)
  obtain ⟨c, hc, _, hqc⟩ := h2.2.1 (by decide)
  have hce : c = "p99_9" := String.ext (hc.trans (by decide))
  subst hce
  have hq : queryId percentileQueryWithId "p99.9" = "m1_p99_9" := hqc
  obtain ⟨q, hl, hqid, hqref, hqstat⟩ := h2.2.2 _ rfl
  rw [hq] at hl hqid
  exact ⟨by decide, h1, by decide, hq, _, rfl, by decide, q, hl, hqid, hqref, hqstat⟩

theorem expansionPairs_append (l₁ l₂ : List requestQuery) :
    expansionPairs (l₁ ++ l₂) = expansionPairs l₁ ++ expansionPairs l₂ := by
  induction l₁ with
  | nil => rfl
  | cons rq l₁ ih => simp [expansionPairs, ih]

/-- C20: a request query without statistics is skipped: the expansion of a list
that holds it returns what the expansion of the list without it returns, map or
error, whatever its expression; in particular the query alone gives the empty
map. -/
theorem empty_statistics_dropped (pre post : List requestQuery) (rq : requestQuery)
    (h : rq.Statistics = []) :
    transformRequestQueriesToCloudWatchQueries (pre ++ rq :: post)
        = transformRequestQueriesToCloudWatchQueries (pre ++ post) ∧
      transformRequestQueriesToCloudWatchQueries [rq] = .ok [] := by
  constructor
  · rw [transform_eq_insertPairs, transform_eq_insertPairs, expansionPairs_append,
      expansionPairs_append]
    simp [expansionPairs, h]
  · rw [transform_eq_insertPairs]
    simp [expansionPairs, h, insertPairs]

/-- C20, at an expression query without statistics placed between the two
statistics queries `A` and `C`. -/
theorem empty_statistics_dropped_scenario :
    expressionWithoutStatistics.Statistics = [] ∧
      expressionWithoutStatistics.Expression ≠ "" ∧
      transformRequestQueriesToCloudWatchQueries
          ([clashQueryA] ++ expressionWithoutStatistics :: [twoStatisticsWithId])
        = transformRequestQueriesToCloudWatchQueries ([clashQueryA] ++ [twoStatisticsWithId]) ∧
      (∃ m, transformRequestQueriesToCloudWatchQueries
          [clashQueryA, expressionWithoutStatistics, twoStatisticsWithId] = .ok m ∧
        m.keys = ["m1", "m1_Average", "m1_Maximum"]) :=
  ⟨rfl, by decide,
    (empty_statistics_dropped [clashQueryA] [twoStatisticsWithId] expressionWithoutStatistics
      rfl).1,
    _, rfl, by decide⟩

/-! ## Regrouping, continued -/

theorem length_pos_iff_ne_empty (s : String) : s.length > 0 ↔ s ≠ "" := by
  obtain ⟨l⟩ := s
  cases l with
  | nil => simp [String.length]
  | cons c l =>
    simp only [String.length, List.length_cons, gt_iff_lt, Nat.zero_lt_succ, ne_eq, true_iff]
    intro h
    have := congrArg String.data h
    simp at this

/-- C16: under every RefID of the returned map, the metadata `Ids` lists the Id
of each response of that RefId in input order, and `searchExpressions` lists the
non-empty SearchExpression texts of those responses in input order. -/
theorem regrouped_metadata (S : SliceSorter) (rs : List cloudwatchResponse) :
    (transformQueryResponseToQueryResult S rs = none ↔ ∃ r ∈ rs, r.series = none) ∧
      ∀ m, transformQueryResponseToQueryResult S rs = some m →
        ∀ refID q, m.lookup refID = some q →
          q.Meta.lookup "Ids" = some ((responsesOf refID rs).map (fun r => r.Id)) ∧
          q.Meta.lookup "searchExpressions" =
            some (((responsesOf refID rs).map (fun r => r.SearchExpression)).filter
              (fun s => decide (s ≠ ""))) := by
  refine ⟨transform_eq_none_iff S rs, fun m hm refID q hq => ?_⟩
  obtain ⟨_, rfl⟩ := transform_lookup_some S rs m hm refID q hq
  rw [regroupedResult_meta_lookup, regroupedResult_meta_lookup]
  have hne : ¬ ("Ids" = "searchExpressions") := by decide
  refine ⟨by rw [if_neg hne, if_pos rfl], ?_⟩
  rw [if_pos rfl, List.filter_map]
  congr 2
  apply List.filter_congr
  intro r _
  simp only [Function.comp_apply, decide_eq_decide]
  exact length_pos_iff_ne_empty _

/-! ## `groupQueriesByRegion` -/

theorem GoMap.set_set {V : Type} (m : GoMap V) (k : String) (v w : V) :
    (m.set k v).set k w = m.set k w := by
  induction m with
  | nil => simp [GoMap.set]
  | cons kv m ih =>
    obtain ⟨k₀, v₀⟩ := kv
    by_cases h : k₀ = k
    · simp [GoMap.set, h]
    · simp [GoMap.set, h, ih]

theorem groupQueriesByRegionLoop_cons (query : cloudWatchQuery) (rest : List cloudWatchQuery)
    (m : GoMap (List cloudWatchQuery)) :
    groupQueriesByRegionLoop (query :: rest) m =
      groupQueriesByRegionLoop rest
        (m.set query.Region ((m.lookup query.Region).getD [] ++ [query])) := by
  simp only [groupQueriesByRegionLoop]
  cases h : List.lookup query.Region m with
  | some l => simp [h]
  | none => simp [h, GoMap.lookup_set, GoMap.set_set]

theorem flatMap_set_append (m : GoMap (List cloudWatchQuery)) (k : String)
    (q : cloudWatchQuery) :
    (List.flatMap (m.set k ((m.lookup k).getD [] ++ [q])) (fun kv => kv.2)).Perm
      (List.flatMap m (fun kv => kv.2) ++ [q]) := by
  induction m with
  | nil => simp [GoMap.set, List.lookup]
  | cons kv m ih =>
    obtain ⟨k₀, v₀⟩ := kv
    by_cases h : k₀ = k
    · subst h
      simp only [GoMap.set, if_true, List.lookup, beq_self_eq_true, Option.getD_some,
        List.flatMap_cons, List.append_assoc]
      exact List.Perm.append_left _ List.perm_append_comm
    · have hb : (k == k₀) = false := by simpa using Ne.symm h
      simp only [GoMap.set, h, if_false, List.lookup, hb, List.flatMap_cons, List.append_assoc]
      exact List.Perm.append_left _ ih

theorem groupQueriesByRegionLoop_perm (qs : List cloudWatchQuery)
    (m : GoMap (List cloudWatchQuery)) :
    (List.flatMap (groupQueriesByRegionLoop qs m) (fun kv => kv.2)).Perm
      (List.flatMap m (fun kv => kv.2) ++ qs) := by
  induction qs generalizing m with
  | nil => simp [groupQueriesByRegionLoop]
  | cons query rest ih =>
    rw [groupQueriesByRegionLoop_cons]
    refine (ih _).trans ?_
    refine ((flatMap_set_append m query.Region query).append_right rest).trans ?_
    simp

theorem groupQueriesByRegionLoop_nodup (qs : List cloudWatchQuery)
    (m : GoMap (List cloudWatchQuery)) (h : m.keys.Nodup) :
    (groupQueriesByRegionLoop qs m).keys.Nodup := by
  induction qs generalizing m with
  | nil => exact h
  | cons query rest ih =>
    rw [groupQueriesByRegionLoop_cons]
    exact ih _ (GoMap.nodup_keys_set m _ _ h)

theorem groupQueriesByRegionLoop_lookup (qs : List cloudWatchQuery)
    (m : GoMap (List cloudWatchQuery)) (region : String) :
    (groupQueriesByRegionLoop qs m).lookup region =
      if queriesOf region qs = [] then m.lookup region
      else some ((m.lookup region).getD [] ++ queriesOf region qs) := by
  induction qs generalizing m with
  | nil => simp [groupQueriesByRegionLoop, queriesOf]
  | cons query rest ih =>
    rw [groupQueriesByRegionLoop_cons, ih, GoMap.lookup_set]
    by_cases h : region = query.Region
    · subst h
      have hcons : queriesOf query.Region (query :: rest)
          = query :: queriesOf query.Region rest := by
        simp [queriesOf]
      rw [hcons]
      by_cases hr : queriesOf query.Region rest = []
      · simp [hr]
      · simp [hr]
    · have hcons : queriesOf region (query :: rest) = queriesOf region rest := by
        simp [queriesOf, Ne.symm h]
      rw [hcons]
      simp [h]

theorem groupQueriesByRegion_mem (queries : GoMap cloudWatchQuery) (region : String)
    (l : List cloudWatchQuery) (h : (region, l) ∈ groupQueriesByRegion queries) :
    l = queriesOf region (queries.map Prod.snd) ∧ l ≠ [] := by
  have hl := GoMap.lookup_of_mem _
    (groupQueriesByRegionLoop_nodup (queries.map Prod.snd) [] (by simp [GoMap.keys])) region l h
  rw [groupQueriesByRegionLoop_lookup] at hl
  by_cases hr : queriesOf region (queries.map Prod.snd) = []
  · simp [hr, List.lookup] at hl
  · simp only [hr, if_false, List.lookup, Option.getD_none, List.nil_append,
      Option.some.injEq] at hl
    exact ⟨hl.symm, hl ▸ hr⟩

/-- C18: `groupQueriesByRegion` partitions the queries of the map: the regions of
the result are pairwise distinct, the lists of the result taken together hold
each input query exactly once, the list of a region is not empty and holds the
queries of that region (in the order the map is visited), every input query
lies in the list of its own region, and the lengths of the lists add up to the
number of input queries. -/
theorem groupQueriesByRegion_partition (queries : GoMap cloudWatchQuery) :
    (groupQueriesByRegion queries).keys.Nodup ∧
      (List.flatMap (groupQueriesByRegion queries) (fun kv => kv.2)).Perm
        (queries.map Prod.snd) ∧
      (∀ region l, (region, l) ∈ groupQueriesByRegion queries →
        l ≠ [] ∧ (∀ q ∈ l, q.Region = region) ∧
        l = queriesOf region (queries.map Prod.snd)) ∧
      (∀ kv ∈ queries, ∃ l,
        (groupQueriesByRegion queries).lookup kv.2.Region = some l ∧ kv.2 ∈ l) ∧
      ((groupQueriesByRegion queries).map (fun kv => kv.2.length)).sum = queries.length := by
  have hperm : (List.flatMap (groupQueriesByRegion queries) (fun kv => kv.2)).Perm
      (queries.map Prod.snd) := by
    simpa [groupQueriesByRegion] using groupQueriesByRegionLoop_perm (queries.map Prod.snd) []
  refine ⟨groupQueriesByRegionLoop_nodup _ [] (by simp [GoMap.keys]), hperm, ?_, ?_, ?_⟩
  · intro region l hmem
    obtain ⟨hl, hne⟩ := groupQueriesByRegion_mem queries region l hmem
    refine ⟨hne, fun q hq => ?_, hl⟩
    rw [hl] at hq
    simpa using (List.mem_filter.1 hq).2
  · intro kv hkv
    have hin : kv.2 ∈ queriesOf kv.2.Region (queries.map Prod.snd) :=
      List.mem_filter.2 ⟨List.mem_map.2 ⟨kv, hkv, rfl⟩, by simp⟩
    have hne : queriesOf kv.2.Region (queries.map Prod.snd) ≠ [] :=
      List.ne_nil_of_mem hin
    refine ⟨queriesOf kv.2.Region (queries.map Prod.snd), ?_, hin⟩
    unfold groupQueriesByRegion
    rw [groupQueriesByRegionLoop_lookup]
    simp [hne, List.lookup]
  · have hlen := hperm.length_eq
    rw [List.length_flatMap, List.length_map] at hlen
    exact hlen

/-- The grouping of three queries over two regions: two lists, of two queries and
of one. -/
theorem groupQueriesByRegion_three :
    (groupQueriesByRegion threeQueriesTwoRegions).map
        (fun kv => (kv.1, kv.2.map (fun q => q.Id)))
      = [("us-east-1", ["a", "c"]), ("eu-west-1", ["b"])] := by
  decide

/-! ## The round trip -/

/-- C15 (as stated, refuted): one request query that carries an expression and no
statistic has no duplicate identifier, and its round trip yields no RefID; two
request queries of RefId `A` with the client ids `m1` and `m2` have no duplicate
identifier, and their round trip yields the one RefID `A`. -/
theorem round_trip_fewer_refids :
    ((derivedIds [expressionWithoutStatistics]).Nodup ∧
        [expressionWithoutStatistics].length = 1 ∧
        (roundTrip insertionSorter simulatedFetch [expressionWithoutStatistics]).map
          (fun out => out.keys) = some []) ∧
      ((derivedIds [clashQueryA, secondQueryOfA]).Nodup ∧
        [clashQueryA, secondQueryOfA].length = 2 ∧
        (roundTrip insertionSorter simulatedFetch [clashQueryA, secondQueryOfA]).map
          (fun out => out.keys) = some ["A"]) := by
  decide

/-- C15 (amended): for request queries with no duplicate identifier the expansion
succeeds, and regrouping one fetched response per flattened query (each carrying
the Id and RefId of its query, in any order) yields a map whose keys are exactly
the RefIds of the request queries that have at least one statistic; it has as
many RefIDs as there are request queries when the request queries have pairwise
distinct RefIds and at least one statistic each. -/
theorem round_trip_refids (S : SliceSorter) (fetch : cloudWatchQuery → cloudwatchResponse)
    (rqs : List requestQuery) (hnd : (derivedIds rqs).Nodup)
    (hfetch : ∀ q, (fetch q).Id = q.Id ∧ (fetch q).RefId = q.RefId ∧ (fetch q).series ≠ none) :
    ∃ m, transformRequestQueriesToCloudWatchQueries rqs = .ok m ∧
      ∀ responses : List cloudwatchResponse,
        responses.Perm (m.map (fun kv => fetch kv.2)) →
        ∃ out, transformQueryResponseToQueryResult S responses = some out ∧
          out.keys.Nodup ∧
          (∀ refID, refID ∈ out.keys ↔
            ∃ rq ∈ rqs, rq.Statistics ≠ [] ∧ rq.RefId = refID) ∧
          ((rqs.map (fun rq => rq.RefId)).Nodup → (∀ rq ∈ rqs, rq.Statistics ≠ []) →
            out.length = rqs.length) := by
  refine ⟨_, transform_ok_of_nodup rqs hnd, fun responses hperm => ?_⟩
  have hall : ∀ r ∈ responses, r.series ≠ none := by
    intro r hr
    obtain ⟨kv, _, rfl⟩ := List.mem_map.1 (hperm.mem_iff.1 hr)
    exact (hfetch kv.2).2.2
  have hout := transform_eq_some S responses hall
  obtain ⟨hkn, hkeys⟩ := transform_keys S responses _ hout
  have hset : ∀ refID, refID ∈ responses.map (fun r => r.RefId) ↔
      ∃ rq ∈ rqs, rq.Statistics ≠ [] ∧ rq.RefId = refID := by
    intro refID
    rw [(hperm.map _).mem_iff]
    simp only [List.map_map, List.mem_map, Function.comp_apply, Prod.exists]
    constructor
    · rintro ⟨rq, s, hmem, hre⟩
      obtain ⟨hrq, hs⟩ := (mem_expansionPairs rqs rq s).1 hmem
      refine ⟨rq, hrq, List.ne_nil_of_mem hs, ?_⟩
      rw [← hre, (hfetch _).2.1]
      rfl
    · rintro ⟨rq, hrq, hne, rfl⟩
      obtain ⟨s, hs⟩ := List.exists_mem_of_ne_nil _ hne
      refine ⟨rq, s, (mem_expansionPairs rqs rq s).2 ⟨hrq, hs⟩, ?_⟩
      rw [(hfetch _).2.1]
      rfl
  refine ⟨_, hout, hkn, fun refID => (hkeys refID).trans (hset refID), fun hrn hstat => ?_⟩
  have hp : (GoMap.keys ((groupResponsesByRefID responses []).map
      (fun kv => (kv.1, regroupedResult S kv.1 kv.2)))).Perm (rqs.map (fun rq => rq.RefId)) := by
    rw [List.perm_ext_iff_of_nodup hkn hrn]
    intro refID
    rw [hkeys refID, hset refID, List.mem_map]
    exact ⟨fun ⟨rq, hrq, _, he⟩ => ⟨rq, hrq, he⟩, fun ⟨rq, hrq, he⟩ => ⟨rq, hrq, hstat rq hrq, he⟩⟩
  have hlen := hp.length_eq
  simpa [GoMap.keys] using hlen

/-- C15 (amended), at the scenario query `A` together with a query of RefId `B`:
two request queries, three flattened queries, two RefIDs. -/
theorem round_trip_refids_scenario :
    (derivedIds [scenarioQueryA, clashQueryB]).Nodup ∧
      (roundTrip insertionSorter simulatedFetch [scenarioQueryA, clashQueryB]).map
        (fun out => out.keys) = some ["A", "B"] ∧
      ∃ m out, transformRequestQueriesToCloudWatchQueries [scenarioQueryA, clashQueryB] = .ok m ∧
        m.length = 3 ∧
        transformQueryResponseToQueryResult insertionSorter
          (m.map (fun kv => simulatedFetch kv.2)) = some out ∧
        out.length = [scenarioQueryA, clashQueryB].length := by
  have hnd : (derivedIds [scenarioQueryA, clashQueryB]).Nodup := by decide
  obtain ⟨m, hm, h⟩ := round_trip_refids insertionSorter simulatedFetch
    [scenarioQueryA, clashQueryB] hnd (fun q => ⟨rfl, rfl, by simp [simulatedFetch]⟩)
  obtain ⟨out, hout, _, _, hlen⟩ := h _ (List.Perm.refl _)
  have hm' := (transform_ok_iff _ m).1 hm
  refine ⟨hnd, by decide, m, out, hm, ?_, hout, hlen (by decide) (by decide)⟩
  rw [hm'.2]
  rfl

/-! ## `executeTimeSeriesQuery`: a regional task fails -/

theorem runRegionTasks_error {Ctx Input : Type} (C : Collaborators Ctx Input)
    (queries : GoMap cloudWatchQuery) (tasks : GoMap (List Input)) (sent : List QueryResult)
    (h : ∃ kv ∈ tasks, ∃ err, C.regionTask kv.1 kv.2 queries = .error err) :
    ∃ kv ∈ tasks, ∃ err, C.regionTask kv.1 kv.2 queries = .error err ∧
      runRegionTasks C queries tasks sent = .error err := by
  induction tasks generalizing sent with
  | nil => simp at h
  | cons kv tasks ih =>
    obtain ⟨region, inputs⟩ := kv
    cases hrun : C.regionTask region inputs queries with
    | error err =>
      exact ⟨(region, inputs), List.mem_cons_self _ _, err, hrun, by simp [runRegionTasks, hrun]⟩
    | ok rs =>
      have h' : ∃ kv ∈ tasks, ∃ err, C.regionTask kv.1 kv.2 queries = .error err := by
        obtain ⟨kv, hkv, err, herr⟩ := h
        rcases List.mem_cons.1 hkv with e | e
        · subst e
          rw [hrun] at herr
          cases herr
        · exact ⟨kv, e, err, herr⟩
      obtain ⟨kv, hkv, err, herr, hres⟩ := ih (sent ++ rs) h'
      exact ⟨kv, List.mem_cons_of_mem _ hkv, err, herr, by simp [runRegionTasks, hrun, hres]⟩

/-- C17: when the queries are parsed, the requests are built and the task of some
region returns an error, `executeTimeSeriesQuery` returns no response and the
error of a failing task; in whatever order the tasks are run, what `eg.Wait`
gives is the error of a failing task. -/
theorem task_error_returns_no_response {Ctx Input : Type} (C : Collaborators Ctx Input)
    (queryContext : Ctx) (queries : GoMap cloudWatchQuery) (inputs : GoMap (List Input))
    (hparse : C.parseQueries queryContext = .ok queries)
    (hbuild : buildInputsLoop C queryContext (groupQueriesByRegion queries) [] = .ok inputs)
    (hfail : ∃ kv ∈ inputs, ∃ err, C.regionTask kv.1 kv.2 queries = .error err) :
    (∃ kv ∈ inputs, ∃ err, C.regionTask kv.1 kv.2 queries = .error err ∧
        executeTimeSeriesQuery C queryContext = (none, some err)) ∧
      (executeTimeSeriesQuery C queryContext).1 = none ∧
      ∀ schedule : GoMap (List Input), schedule.Perm inputs →
        ∃ kv ∈ inputs, ∃ err, C.regionTask kv.1 kv.2 queries = .error err ∧
          runRegionTasks C queries schedule [] = .error err := by
  obtain ⟨kv, hkv, err, herr, hrun⟩ := runRegionTasks_error C queries inputs [] hfail
  have hexec : executeTimeSeriesQuery C queryContext = (none, some err) := by
    simp [executeTimeSeriesQuery, hparse, hbuild, hrun]
  refine ⟨⟨kv, hkv, err, herr, hexec⟩, by rw [hexec], fun schedule hperm => ?_⟩
  obtain ⟨kv', hkv', err', herr', hrun'⟩ := runRegionTasks_error C queries schedule []
    (by
      obtain ⟨kv₀, hkv₀, e₀, he₀⟩ := hfail
      exact ⟨kv₀, hperm.mem_iff.2 hkv₀, e₀, he₀⟩)
  exact ⟨kv', hperm.mem_iff.1 hkv', err', herr', hrun'⟩

/-- C17, at two regions: the task of `us-east-1` sends the series `X` for RefId
`A`, the task of `eu-west-1` fails; the execution returns the error and no
response. -/
theorem task_error_returns_no_response_two_regions :
    failingRegionCollaborators.parseQueries [clashQueryA, euQueryB]
        = .ok ((expansionPairs [clashQueryA, euQueryB]).map expansionEntry) ∧
      failingRegionCollaborators.regionTask "us-east-1" [()]
          ((expansionPairs [clashQueryA, euQueryB]).map expansionEntry)
        = .ok [{ tsdb.NewQueryResult with RefId := "A", Series := [seriesX] }] ∧
      executeTimeSeriesQuery failingRegionCollaborators [clashQueryA, euQueryB]
        = (none, some (.other "AccessDenied")) := by
  have hparse : failingRegionCollaborators.parseQueries [clashQueryA, euQueryB]
      = .ok ((expansionPairs [clashQueryA, euQueryB]).map expansionEntry) := rfl
  have hbuild : buildInputsLoop failingRegionCollaborators [clashQueryA, euQueryB]
      (groupQueriesByRegion ((expansionPairs [clashQueryA, euQueryB]).map expansionEntry)) []
      = .ok [("us-east-1", [()]), ("eu-west-1", [()])] := rfl
  obtain ⟨⟨kv, hkv, err, herr, hexec⟩, _, _⟩ :=
    task_error_returns_no_response failingRegionCollaborators [clashQueryA, euQueryB] _ _
      hparse hbuild ⟨("eu-west-1", [()]), by simp, .other "AccessDenied", rfl⟩
  refine ⟨hparse, rfl, ?_⟩
  rw [hexec]
  have hkv' : kv = ("us-east-1", [()]) ∨ kv = ("eu-west-1", [()]) := by simpa using hkv
  rcases hkv' with rfl | rfl
  · cases herr
  · cases herr
    rfl

/-! ## The batch builder -/

theorem searchExpressionCount_append (a b : List cloudWatchQuery) :
    searchExpressionCount (a ++ b) = searchExpressionCount a + searchExpressionCount b := by
  simp [searchExpressionCount, List.countP_append]

theorem searchExpressionCount_singleton_le (q : cloudWatchQuery) :
    searchExpressionCount [q] ≤ 1 := by
  unfold searchExpressionCount
  exact (List.countP_le_length _).trans (by simp)

theorem pack_nil (b : metricDataInputBuilder) (current : List cloudWatchQuery) :
    b.pack [] current = if current = [] then [] else [current] := by
  conv_lhs => unfold metricDataInputBuilder.pack

theorem pack_cons (b : metricDataInputBuilder) (query : cloudWatchQuery)
    (rest current : List cloudWatchQuery) :
    b.pack (query :: rest) current =
      if current ≠ [] ∧
          (current.length + 1 > b.maxNoOfMetricDataQueries ∨
            searchExpressionCount (current ++ [query]) > b.maxNoOfSearchExpressions) then
        current :: b.pack rest [query]
      else b.pack rest (current ++ [query]) := by
  conv_lhs => unfold metricDataInputBuilder.pack

theorem pack_flatten (b : metricDataInputBuilder) (queries current : List cloudWatchQuery) :
    (b.pack queries current).flatten = current ++ queries := by
  induction queries generalizing current with
  | nil =>
    unfold metricDataInputBuilder.pack
    split
    · rename_i h
      simp [h]
    · simp
  | cons query rest ih =>
    unfold metricDataInputBuilder.pack
    split
    · simp [ih]
    · simp [ih]

theorem pack_bounds (b : metricDataInputBuilder) (hs : 1 ≤ b.maxNoOfSearchExpressions)
    (hq : 1 ≤ b.maxNoOfMetricDataQueries) (queries current : List cloudWatchQuery)
    (hlen : current.length ≤ b.maxNoOfMetricDataQueries)
    (hcount : searchExpressionCount current ≤ b.maxNoOfSearchExpressions) :
    ∀ batch ∈ b.pack queries current,
      batch ≠ [] ∧ batch.length ≤ b.maxNoOfMetricDataQueries ∧
        searchExpressionCount batch ≤ b.maxNoOfSearchExpressions := by
  induction queries generalizing current with
  | nil =>
    intro batch hb
    unfold metricDataInputBuilder.pack at hb
    split at hb
    · simp at hb
    · rename_i hne
      rw [List.mem_singleton] at hb
      subst hb
      exact ⟨hne, hlen, hcount⟩
  | cons query rest ih =>
    intro batch hb
    unfold metricDataInputBuilder.pack at hb
    split at hb
    · rename_i hclose
      rcases List.mem_cons.1 hb with e | e
      · subst e
        exact ⟨hclose.1, hlen, hcount⟩
      · exact ih [query] (by simpa using hq)
          ((searchExpressionCount_singleton_le query).trans hs) batch e
    · rename_i hkeep
      by_cases hcur : current = []
      · subst hcur
        exact ih ([] ++ [query]) (by simpa using hq)
          (by simpa using (searchExpressionCount_singleton_le query).trans hs) batch hb
      · have hfit : ¬ (current.length + 1 > b.maxNoOfMetricDataQueries ∨
            searchExpressionCount (current ++ [query]) > b.maxNoOfSearchExpressions) :=
          fun h => hkeep ⟨hcur, h⟩
        rw [not_or] at hfit
        exact ih (current ++ [query]) (by simpa using Nat.le_of_not_lt hfit.1)
          (Nat.le_of_not_lt hfit.2) batch hb

theorem pack_append_of_fits (b : metricDataInputBuilder) (a rest current : List cloudWatchQuery)
    (hlen : (current ++ a).length ≤ b.maxNoOfMetricDataQueries)
    (hcount : searchExpressionCount (current ++ a) ≤ b.maxNoOfSearchExpressions) :
    b.pack (a ++ rest) current = b.pack rest (current ++ a) := by
  induction a generalizing current with
  | nil => simp
  | cons query a ih =>
    have h1 : ¬ (current.length + 1 > b.maxNoOfMetricDataQueries) := by
      simp only [List.length_append, List.length_cons] at hlen
      omega
    have h2 : ¬ (searchExpressionCount (current ++ [query]) > b.maxNoOfSearchExpressions) := by
      have : searchExpressionCount (current ++ query :: a)
          = searchExpressionCount (current ++ [query]) + searchExpressionCount a := by
        rw [← searchExpressionCount_append]
        simp
      omega
    have hkeep : ¬ (current ≠ [] ∧
        (current.length + 1 > b.maxNoOfMetricDataQueries ∨
          searchExpressionCount (current ++ [query]) > b.maxNoOfSearchExpressions)) :=
      fun h => h.2.elim h1 h2
    rw [List.cons_append, pack_cons, if_neg hkeep,
      ih (current ++ [query]) (by simpa using hlen) (by simpa using hcount)]
    simp

theorem searchExpressionCount_of_metricStat (qs : List cloudWatchQuery)
    (h : ∀ q ∈ qs, q.isMetricStat = true) : searchExpressionCount qs = 0 := by
  unfold searchExpressionCount
  rw [List.countP_eq_zero]
  intro q hq
  have := h q hq
  unfold cloudWatchQuery.isMetricStat at this
  simp only [Bool.and_eq_true, Bool.not_eq_true'] at this
  simp [this.1]

/-- C19: every batch that the builder with the ceilings 5 and 100 produces for a
list of queries has at least one and at most 100 entries, of which at most 5 are
search expressions; the batches taken together, in order, are the list of
queries; and 101 metric-stat queries give two batches, of 100 entries and of
one. -/
theorem batch_builder_invariant (queries : List cloudWatchQuery) :
    (∀ batch ∈ mdib.buildMetricDataInputs queries,
        batch ≠ [] ∧ batch.length ≤ 100 ∧ searchExpressionCount batch ≤ 5) ∧
      (mdib.buildMetricDataInputs queries).flatten = queries ∧
      (queries.length = 101 → (∀ q ∈ queries, q.isMetricStat = true) →
        mdib.buildMetricDataInputs queries = [queries.take 100, queries.drop 100] ∧
        (mdib.buildMetricDataInputs queries).map List.length = [100, 1]) := by
  refine ⟨?_, ?_, ?_⟩
  · exact pack_bounds mdib (by decide) (by decide) queries [] (by simp)
      (by simp [searchExpressionCount])
  · simpa [metricDataInputBuilder.buildMetricDataInputs] using pack_flatten mdib queries []
  · intro hlen hms
    have htake : (queries.take 100).length = 100 := by simp [hlen]
    have hdrop : (queries.drop 100).length = 1 := by simp [hlen]
    obtain ⟨last, hlast⟩ := List.length_eq_one.1 hdrop
    have hsplit : queries = queries.take 100 ++ ([last] ++ []) := by
      rw [List.append_nil, ← hlast, List.take_append_drop]
    have hzero : searchExpressionCount (queries.take 100) = 0 :=
      searchExpressionCount_of_metricStat _ (fun q hq => hms q (List.mem_of_mem_take hq))
    have hne : queries.take 100 ≠ [] := by
      intro h
      rw [h] at htake
      simp at htake
    have hbuild : mdib.buildMetricDataInputs queries = [queries.take 100, queries.drop 100] := by
      unfold metricDataInputBuilder.buildMetricDataInputs
      conv_lhs => rw [hsplit]
      rw [pack_append_of_fits mdib (queries.take 100) ([last] ++ []) []
        (by simp [htake, mdib, maxNoOfMetricDataQueries])
        (by simp [hzero])]
      have hclose : ([] ++ queries.take 100) ≠ [] ∧
          (([] ++ queries.take 100).length + 1 > mdib.maxNoOfMetricDataQueries ∨
            searchExpressionCount (([] ++ queries.take 100) ++ [last])
              > mdib.maxNoOfSearchExpressions) :=
        ⟨by simpa using hne, Or.inl (by simp [htake, mdib, maxNoOfMetricDataQueries])⟩
      rw [List.singleton_append, pack_cons, if_pos hclose, pack_nil]
      simp [hlast]
    refine ⟨hbuild, ?_⟩
    rw [hbuild]
    simp [htake, hdrop]

/-- Seven search expressions followed by one metric-stat query are packed into a
batch of five search expressions and a batch of three entries. -/
theorem batch_builder_search_ceiling :
    (mdib.buildMetricDataInputs
        (List.replicate 7 noDimensions ++ [newCloudWatchQuery scenarioQueryA "Average"])).map
      (fun batch => (batch.length, searchExpressionCount batch)) = [(5, 5), (3, 2)] := by
  decide

end Cloudwatch
